import Mathlib

/-!
# Connection dispatch of `httpd.Engine`

A shallow embedding of `httpd/httpd.go`.  Calls into the collaborators of the file (the
route lookup, the websocket handshake, the process runtime, the random source) are taken
from an environment `Env`; every observable action of the engine is recorded, in order, as
an `Event`.  A Go panic is an explicit `fault`.
-/

set_option autoImplicit false

namespace Httpd

/-! ## Values -/

/-- Identity of a Go function value of type `handlerFunc`. -/
abbrev handlerFunc := Nat

/-- Identity of a `*kernel.Actor`. -/
abbrev Actor := Nat

/-- Identity of a `*kernel.Pid`. -/
abbrev Pid := Nat

/-- Identity of a `*websocket.Conn`, the channel a successful handshake returns. -/
abbrev WsConn := Nat

/-- The part of `http.Request` the engine reads. -/
structure HttpRequest where
  Method : String
  RequestURI : String
  deriving DecidableEq, Repr

/-- The `*nbio.Conn` of a request: its identity and the value of `conn.Hash()`, a Go `int`. -/
structure Conn where
  id : Nat
  hash : Int
  deriving DecidableEq, Repr

/-- An `interface{}` value handed to `kernel.Start`. -/
inductive Arg where
  | chan (c : WsConn)
  | reqCopy (req : HttpRequest)
  | user (v : Nat)
  deriving DecidableEq, Repr

/-- The request envelope `*Request`: the parsed request, its connection and the handler
function `f` bound to it. -/
structure Request where
  req : HttpRequest
  conn : Conn
  f : Option handlerFunc
  deriving DecidableEq, Repr

/-- Modelled from the spec: `newRequest`, which is not in `httpd.go`; the envelope "captures
method, resolved path, the underlying connection reference, the matched handler", and no
handler is matched yet when it is created. -/
def newRequest (req : HttpRequest) (conn : Conn) : Request :=
  { req := req, conn := conn, f := none }

/-- A trie node, Go `handler`.  The fields are the ones `httpd.go` reads and writes:
`f`, `r` (the child router, a Go map, here an association list), `interceptor`, `isWs`,
`actor`, `actorArgs`. -/
inductive handler where
  | mk (f : Option handlerFunc) (r : Option (List (String × handler)))
      (interceptor : Option (Request → Bool)) (isWs : Bool)
      (actor : Option Actor) (actorArgs : List Arg)

/-- Go `router`, `map[string]*handler`. -/
abbrev router := List (String × handler)

namespace handler

def f : handler → Option handlerFunc
  | mk f _ _ _ _ _ => f

def r : handler → Option router
  | mk _ r _ _ _ _ => r

def interceptor : handler → Option (Request → Bool)
  | mk _ _ i _ _ _ => i

def isWs : handler → Bool
  | mk _ _ _ w _ _ => w

def actor : handler → Option Actor
  | mk _ _ _ _ a _ => a

def actorArgs : handler → List Arg
  | mk _ _ _ _ _ as => as

end handler

/-- Go `Engine`. -/
structure Engine where
  name : String
  port : Int
  addr : List String
  readLimit : Int
  tcpReadBuff : Int
  managerNum : Int
  maxWorkerNum : Int
  manager : List Pid
  balancing : Int
  hasWebSocket : Bool
  wsConfig : Option Nat
  getRouter : router
  postRouter : router
  /-- The field `e.engine`: the listen addresses of the gopher once it is started. -/
  engine : Option (List String)

/-- Go `DefaultHTTPReadLimit`. -/
def DefaultHTTPReadLimit : Int := 20 * 1024 * 1024

/-- Go `New`; `cpuNum` is the value of `runtime.NumCPU()` and `c` the configuration
functions, applied in order. -/
def New (cpuNum : Int) (name : String) (port : Int) (c : List (Engine → Engine)) : Engine :=
  let d : Engine :=
    { name := name
      port := port
      addr := []
      readLimit := DefaultHTTPReadLimit
      tcpReadBuff := 16 * 1024
      managerNum := cpuNum
      maxWorkerNum := cpuNum * 1024
      manager := []
      balancing := 0
      hasWebSocket := false
      wsConfig := none
      getRouter := []
      postRouter := []
      engine := none }
  c.foldl (fun d f => f d) d

/-! ## Collaborators -/

/-- What a call into a collaborator does: it returns, or it raises a fault (a Go panic). -/
inductive Outcome (α : Type) where
  | ret (a : α)
  | fault

/-- The collaborators of `httpd.go`.  A Go result pair `(v, err)` is an `Except`. -/
structure Env where
  /-- The function `routerHandler(e, r)`. -/
  routerHandler : Engine → Request → Outcome (Except String handler)
  /-- The function `websocket.Upgrade(e.wsConfig, r.ResponseWriter(), conn, req)`. -/
  upgrade : Conn → HttpRequest → Outcome (Except String WsConn)
  /-- The function `kernel.Start(actor, args...)`. -/
  kernelStart : Option Actor → List Arg → Outcome (Except String Pid)
  /-- The method `r.reply404()`. -/
  reply404 : Request → Outcome Unit
  /-- The number the random source draws for `rand.Intn`. -/
  randDraw : Nat
  /-- The pid `kernel.SupStartChild` returns for the `i`-th child. -/
  supStartChild : Pid → Nat → Pid
  /-- Whether `g.Start()` returns a nil error. -/
  gopherStart : Bool

/-- An observable action of the engine. -/
inductive Event where
  | lookup (r : Request)
  | cast (index : Nat) (pid : Pid) (r : Request)
  | upgrade (conn : Conn) (req : HttpRequest)
  | kernelStart (actor : Option Actor) (args : List Arg)
  | setHandler (c : WsConn) (pid : Pid)
  | setSession (conn : Conn) (c : WsConn)
  | close (conn : Conn)
  | reply404 (r : Request)
  | errorLog (what : String)
  | supStartChild (sup : Pid) (i : Nat)
  | gopherStart (addrs : List String)
  deriving DecidableEq, Repr

/-! ## Go primitives -/

/-- Go `a % b` on `int`: the remainder of the division truncated toward zero, a fault
(`none`) when `b` is zero. -/
def goRem (a b : Int) : Option Int :=
  if b = 0 then none else some (Int.tmod a b)

/-- Go `xs[i]` on a slice: a fault (`none`) when `i` is out of range. -/
def sliceIndex {α : Type} (xs : List α) (i : Int) : Option α :=
  if 0 ≤ i then xs[i.toNat]? else none

/-- Go `rand.Intn(n)`: a fault when `n <= 0`, otherwise a number of `[0, n)`. -/
def randIntn (draw : Nat) (n : Int) : Option Int :=
  if n ≤ 0 then none else some (Int.tmod (draw : Int) n)

/-- Go `kernel.MakeArgs(args...)`. -/
def MakeArgs (args : List Arg) : List Arg := args

/-- Go `strings.Index(s, string(c))` for a one-byte `c`, counted in characters: the place of
the first `c`, or `-1`. -/
def stringsIndex (c : Char) : List Char → Int
  | [] => -1
  | x :: xs => if x = c then 0 else
      let i := stringsIndex c xs
      if i < 0 then -1 else i + 1

/-- Go `strconv.Itoa`. -/
def Itoa (n : Int) : String := toString n

/-! ## Dispatch -/

/-- What a callback of the engine did: the actions in order, and whether a fault left the
callback and reached its caller. -/
structure Result where
  trace : List Event
  propagated : Bool
  deriving DecidableEq, Repr

/-- The statement `e.manager[i].Cast(r)` for an index expression that evaluated to `i`
(`none`: evaluating it faulted).  The second component is `true` when the statement
completed. -/
def castAt (e : Engine) (i : Option Int) (r : Request) : List Event × Bool :=
  match i with
  | none => ([], false)
  | some i =>
    match sliceIndex e.manager i with
    | none => ([], false)
    | some pid => ([Event.cast i.toNat pid r], true)

/-- Go `Engine.handler`. -/
def Engine.handler (e : Engine) (conn : Conn) (req : HttpRequest) : Result :=
  let r := newRequest req conn
  let (t, ok) := castAt e (goRem conn.hash e.managerNum) r
  { trace := t, propagated := !ok }

/-- Go `Engine.handlerRand`. -/
def Engine.handlerRand (e : Engine) (env : Env) (conn : Conn) (req : HttpRequest) : Result :=
  let r := newRequest req conn
  let (t, ok) := castAt e (randIntn env.randDraw e.managerNum) r
  { trace := t, propagated := !ok }

/-- The upgrade branch of `Engine.handlerWebSocket` (the body of `if h.isWs`). -/
def upgradeBranch (env : Env) (conn : Conn) (req : HttpRequest) (h : handler) :
    List Event × Bool :=
  let reqCopy := req
  match env.upgrade conn req with
  | .fault => ([Event.upgrade conn req], false)
  | .ret (.error _) =>
    ([Event.upgrade conn req, Event.errorLog "upgrade error", Event.close conn], true)
  | .ret (.ok c) =>
    let args := MakeArgs [Arg.chan c, Arg.reqCopy reqCopy] ++ h.actorArgs
    match env.kernelStart h.actor args with
    | .fault => ([Event.upgrade conn req, Event.kernelStart h.actor args], false)
    | .ret (.ok pid) =>
      ([Event.upgrade conn req, Event.kernelStart h.actor args,
        Event.setHandler c pid, Event.setSession conn c], true)
    | .ret (.error _) =>
      ([Event.upgrade conn req, Event.kernelStart h.actor args,
        Event.errorLog "start handler error", Event.close conn], true)

/-- The pool branch of `Engine.handlerWebSocket` (the `else` of `if h.isWs`). -/
def poolBranch (e : Engine) (env : Env) (conn : Conn) (r : Request) (h : handler) :
    List Event × Bool :=
  let r := { r with f := h.f }
  if e.balancing = 1 then
    castAt e (randIntn env.randDraw e.managerNum) r
  else
    castAt e (goRem conn.hash e.managerNum) r

/-- The body of `Engine.handlerWebSocket` after the `defer`: its actions, and the value of
`ok` when it is left (`ok = true` is its last statement, so `false` means a fault left it). -/
def handlerWebSocketBody (e : Engine) (env : Env) (conn : Conn) (req : HttpRequest) :
    List Event × Bool :=
  let r := newRequest req conn
  match env.routerHandler e r with
  | .fault => ([Event.lookup r], false)
  | .ret (.ok h) =>
    let (t, ok) := if h.isWs then upgradeBranch env conn req h else poolBranch e env conn r h
    (Event.lookup r :: t, ok)
  | .ret (.error _) =>
    match env.reply404 r with
    | .fault => ([Event.lookup r, Event.errorLog "router error", Event.reply404 r], false)
    | .ret _ => ([Event.lookup r, Event.errorLog "router error", Event.reply404 r], true)

/-- The deferred function of `Engine.handlerWebSocket`, run when the body is left, with the
value of `ok` and with whether a fault is in flight: unless `ok`, it takes the fault with
`recover()`, logs it when there is one, and closes the connection.  The result is its
actions and whether a fault is still in flight after it. -/
def deferredGuard (conn : Conn) (ok inFlight : Bool) : List Event × Bool :=
  if !ok then
    ((if inFlight then [Event.errorLog "catch error"] else []) ++ [Event.close conn], false)
  else ([], inFlight)

/-- Go `Engine.handlerWebSocket`.  The body is left by its last statement `ok = true` or by
a fault, so a fault is in flight exactly when `ok` is false. -/
def Engine.handlerWebSocket (e : Engine) (env : Env) (conn : Conn) (req : HttpRequest) :
    Result :=
  let body := handlerWebSocketBody e env conn req
  let d := deferredGuard conn body.2 (!body.2)
  { trace := body.1 ++ d.1, propagated := d.2 }

/-! ## Start-up -/

/-- The loop of `Engine.buildAddr` over `e.addr`, `rs` being the slice built so far. -/
def buildAddrLoop (port : Int) : List String → List String → List String
  | [], rs => rs
  | addr :: rest, rs =>
    if stringsIndex ':' addr.data ≥ 0 then buildAddrLoop port rest (rs ++ [addr])
    else buildAddrLoop port rest (rs ++ [addr ++ ":" ++ Itoa port])

/-- Go `Engine.buildAddr`: the engine with its port stored, and the listen addresses. -/
def Engine.buildAddr (e : Engine) : Engine × List String :=
  let e := if e.port = 0 then { e with port := 8080 } else e
  if e.addr.length = 0 then (e, [":" ++ Itoa e.port])
  else (e, buildAddrLoop e.port e.addr [])

/-- The callback `Engine.start` hands to the parser of every connection. -/
inductive Callback where
  | handler
  | handlerRand
  | handlerWebSocket
  deriving DecidableEq, Repr

/-- The choice of `h` in `Engine.start`. -/
def selectCallback (e : Engine) : Callback :=
  if e.hasWebSocket then Callback.handlerWebSocket
  else if e.balancing = 1 then Callback.handlerRand
  else Callback.handler

/-- Running a callback on a request. -/
def Callback.run (h : Callback) (e : Engine) (env : Env) (conn : Conn) (req : HttpRequest) :
    Result :=
  match h with
  | .handler => e.handler conn req
  | .handlerRand => e.handlerRand env conn req
  | .handlerWebSocket => e.handlerWebSocket env conn req

/-- The first loop of `Engine.start`: `n` further children are started, the `i`-th being the
next; the result is the extended `e.manager` and the actions. -/
def startManagers (env : Env) (sup : Pid) : Nat → Nat → List Pid → List Pid × List Event
  | 0, _, manager => (manager, [])
  | n + 1, i, manager =>
    let managerPid := env.supStartChild sup i
    let (m, t) := startManagers env sup n (i + 1) (manager ++ [managerPid])
    (m, Event.supStartChild sup i :: t)

/-- The default of `websocket.DefaultConfig()`. -/
def DefaultConfig : Nat := 0

/-- The part of `Engine.start` after its first loop, from `e.buildAddr()` on; `t` holds the
actions of the loop.  A failing `g.Start()` ends in `log.Panic`. -/
def Engine.listen (e : Engine) (env : Env) (t : List Event) : Engine × Callback × Result :=
  let ba := e.buildAddr
  let h := selectCallback ba.1
  let e2 := if ba.1.hasWebSocket then
      { ba.1 with wsConfig := some (ba.1.wsConfig.getD DefaultConfig) } else ba.1
  if env.gopherStart then
    ({ e2 with engine := some ba.2 }, h,
      { trace := t ++ [Event.gopherStart ba.2], propagated := false })
  else
    (e2, h, { trace := t ++ [Event.gopherStart ba.2], propagated := true })

/-- Go `Engine.start`: the engine afterwards, the callback it installed, and what it did.
The loop `for i := 0; i < e.managerNum; i++` runs `e.managerNum` times (not at all when
that is negative).  The initial arguments of the managers (`dev`, a rounded `float32`
quotient) are left out. -/
def Engine.start (e : Engine) (env : Env) (sup : Pid) : Engine × Callback × Result :=
  let ms := startManagers env sup e.managerNum.toNat 0 e.manager
  Engine.listen { e with manager := ms.1 } env ms.2

/-! ## Reading a trace -/

/-- A cast to a pool worker. -/
def Event.isCast : Event → Bool
  | .cast _ _ _ => true
  | _ => false

/-- A call of `websocket.Upgrade`. -/
def Event.isUpgrade : Event → Bool
  | .upgrade _ _ => true
  | _ => false

/-- A call of `kernel.Start`. -/
def Event.isKernelStart : Event → Bool
  | .kernelStart _ _ => true
  | _ => false

/-- A call of `SetHandler` or of `SetSession`. -/
def Event.isBind : Event → Bool
  | .setHandler _ _ => true
  | .setSession _ _ => true
  | _ => false

/-- A call of `conn.Close()`. -/
def Event.isClose : Event → Bool
  | .close _ => true
  | _ => false

/-- A call of `reply404`. -/
def Event.isReply404 : Event → Bool
  | .reply404 _ => true
  | _ => false

/-- The worker indices of the casts of a trace, in order. -/
def castIndices : List Event → List Nat
  | [] => []
  | .cast i _ _ :: t => i :: castIndices t
  | _ :: t => castIndices t

/-- Whether a fault is raised in the body of `Engine.handlerWebSocket`, read off the
collaborators: in the route lookup, in the handshake, in the start of the dedicated worker,
in the dispatch (the index expression or the indexing of `e.manager`), or in the not-found
reply. -/
def faultRaised (e : Engine) (env : Env) (conn : Conn) (req : HttpRequest) : Bool :=
  match env.routerHandler e (newRequest req conn) with
  | .fault => true
  | .ret (.error _) =>
    (match env.reply404 (newRequest req conn) with
     | .fault => true
     | .ret _ => false)
  | .ret (.ok h) =>
    if h.isWs then
      (match env.upgrade conn req with
       | .fault => true
       | .ret (.error _) => false
       | .ret (.ok c) =>
         (match env.kernelStart h.actor ([Arg.chan c, Arg.reqCopy req] ++ h.actorArgs) with
          | .fault => true
          | .ret _ => false))
    else
      (match (if e.balancing = 1 then randIntn env.randDraw e.managerNum
              else goRem conn.hash e.managerNum) with
       | none => true
       | some i => (sliceIndex e.manager i).isNone)

/-! ## Sample values -/

/-- A plain route node bound to handler function `7`. -/
def sampleHandler : handler := handler.mk (some 7) none none false none []

/-- An upgrade-eligible route node, as `GetWebsocket` leaves it, with actor `3` and two
registered arguments. -/
def sampleWsHandler : handler :=
  handler.mk (some 0) none none true (some 3) [Arg.user 11, Arg.user 12]

/-- An engine of four started workers `[100, 101, 102, 103]` in sticky-hash mode. -/
def sampleEngine : Engine :=
  { New 4 "web" 8080 [] with manager := [100, 101, 102, 103] }

/-- The same engine in random mode. -/
def sampleEngineRand : Engine := { sampleEngine with balancing := 1 }

/-- A connection whose hash is `10`. -/
def sampleConn : Conn := { id := 1, hash := 10 }

/-- A request for `/v1/login`. -/
def sampleReq : HttpRequest := { Method := "GET", RequestURI := "/v1/login" }

/-- Collaborators that all succeed; the route lookup returns `h`. -/
def sampleEnv (h : handler) : Env :=
  { routerHandler := fun _ _ => .ret (.ok h)
    upgrade := fun _ _ => .ret (.ok 55)
    kernelStart := fun _ _ => .ret (.ok 200)
    reply404 := fun _ => .ret ()
    randDraw := 6
    supStartChild := fun _ i => 100 + i
    gopherStart := true }

/-- Collaborators whose route lookup finds nothing. -/
def sampleEnvNotFound : Env :=
  { sampleEnv sampleHandler with routerHandler := fun _ _ => .ret (.error "not found") }

/-- Collaborators whose handshake fails. -/
def sampleEnvUpgradeFails : Env :=
  { sampleEnv sampleWsHandler with upgrade := fun _ _ => .ret (.error "bad handshake") }

/-- Collaborators whose worker initialisation raises a fault. -/
def sampleEnvStartFaults : Env :=
  { sampleEnv sampleWsHandler with kernelStart := fun _ _ => .fault }

/-! ## Routes -/

/-- The zero value `&handler{}` of a trie node. -/
def emptyHandler : handler := handler.mk none none none false none []

namespace handler

/-- The assignment `h.f = f`. -/
def setF : handler → Option handlerFunc → handler
  | mk _ r i w a as, f => mk f r i w a as

/-- The assignment `h.r = r`. -/
def setR : handler → Option router → handler
  | mk f _ i w a as, r => mk f r i w a as

/-- The assignment `h.interceptor = i`. -/
def setInterceptor : handler → Option (Request → Bool) → handler
  | mk f r _ w a as, i => mk f r i w a as

/-- The assignments `h.isWs = true; h.actor = actor; h.actorArgs = args` of `GetWebsocket`. -/
def setWs : handler → Actor → List Arg → handler
  | mk f r i _ _ _, actor, args => mk f r i true (some actor) args

/-- The assignments `h.isWs = true; h.actor = actor` of `GetGroup.GetWebsocket`. -/
def setWsActor : handler → Actor → handler
  | mk f r i _ _ as, actor => mk f r i true (some actor) as

end handler

/-- Go `r[key]` on a `router` map. -/
def routerGet : router → String → Option handler
  | [], _ => none
  | (k, h) :: rest, key => if k = key then some h else routerGet rest key

/-- Go `r[key] = h` on a `router` map. -/
def routerSet : router → String → handler → router
  | [], key, h => [(key, h)]
  | (k, h0) :: rest, key, h =>
    if k = key then (k, h) :: rest else (k, h0) :: routerSet rest key h

/-- The pieces of a character string between its `/` separators, as Go
`strings.Split(s, "/")` gives them: `/v1/login` yields the empty piece, `v1`, `login`. -/
def splitSlash : List Char → List (List Char)
  | [] => [[]]
  | c :: cs =>
    if c = '/' then [] :: splitSlash cs
    else
      match splitSlash cs with
      | [] => [[c]]
      | seg :: segs => (c :: seg) :: segs

/-- Modelled from the spec: `buildPaths`, which is not in `httpd.go`; a route is inserted
"by splitting the pattern into segments", here the pieces between the `/` of the URI.  The
groups of `httpd.go` drop the first piece (`buildPaths(uri)[1:]`), the empty piece in front
of the leading `/`. -/
def buildPaths (uri : String) : List String :=
  (splitSlash uri.data).map String.mk

/-- Modelled from the spec: `insertPathsGroup`, which is not in `httpd.go`: "walking/creating
trie nodes; the final node stores the handler".  A node on the way is taken from the map or
created, and so is its child map; the final node gets `f`.  The result is the map after
the insertion; the node the Go function returns is the one at `paths`. -/
def insertPathsGroup (r : router) : List String → Option handlerFunc → router
  | [], _ => r
  | p :: ps, f =>
    let h := (routerGet r p).getD emptyHandler
    match ps with
    | [] => routerSet r p (h.setF f)
    | _ :: _ => routerSet r p (h.setR (some (insertPathsGroup (h.r.getD []) ps f)))

/-- The node at `paths` below the map `r` (the pointer `insertPathsGroup` returns) after the
assignment `fn` to it; a map without such a node is left as it is. -/
def updateNode (r : router) : List String → (handler → handler) → router
  | [], _ => r
  | p :: ps, fn =>
    match routerGet r p with
    | none => r
    | some h =>
      match ps with
      | [] => routerSet r p (fn h)
      | _ :: _ => routerSet r p (h.setR (some (updateNode (h.r.getD []) ps fn)))

/-- Modelled from the spec: the walk of `Lookup`, which "walks the same trie
deterministically; returns the matched node's handler/upgrade descriptor [...] or a
not-found result if any segment fails to match"; an interceptor on the way that returns
false rejects the request; a matched node without a terminal handler is no route. -/
def walk (r : router) (req : Request) : List String → Except String handler
  | [] => .error "not found"
  | p :: ps =>
    match routerGet r p with
    | none => .error "not found"
    | some h =>
      if (match h.interceptor with
          | some ic => !ic req
          | none => false) then .error "rejected"
      else
        match ps with
        | [] => if h.f.isSome then .ok h else .error "not found"
        | _ :: _ => walk (h.r.getD []) req ps

/-- Modelled from the spec: `routerHandler`, which is not in `httpd.go`: the lookup of the
request path in the trie of its method, "one trie per HTTP method (at minimum GET and POST
are distinct trees)". -/
def routerHandler (e : Engine) (r : Request) : Except String handler :=
  if r.req.Method = "GET" then walk e.getRouter r (buildPaths r.req.RequestURI)
  else if r.req.Method = "POST" then walk e.postRouter r (buildPaths r.req.RequestURI)
  else .error "not found"

/-- What a lookup tells the engine: the error, or the handler function, the upgrade flag,
the actor and the actor arguments of the matched node. -/
def routeOf : Except String handler →
    Except String (Option handlerFunc × Bool × Option Actor × List Arg)
  | .ok h => .ok (h.f, h.isWs, h.actor, h.actorArgs)
  | .error m => .error m

/-- Whether no interceptor on the nodes of `r` along `paths` rejects the request. -/
def pathOpen (r : router) (req : Request) : List String → Bool
  | [] => true
  | p :: ps =>
    match routerGet r p with
    | none => true
    | some h =>
      (match h.interceptor with
       | some ic => ic req
       | none => true) && pathOpen (h.r.getD []) req ps

/-- The node at `paths` below the map `r`, if there is one. -/
def nodeAt (r : router) : List String → Option handler
  | [] => none
  | p :: ps =>
    match routerGet r p with
    | none => none
    | some h =>
      match ps with
      | [] => some h
      | _ :: _ => nodeAt (h.r.getD []) ps

/-- Go `none`, the handler function of an upgrade-eligible route. -/
def noneFunc : handlerFunc := 0

/-- Go `Engine.Get`. -/
def Engine.Get (e : Engine) (uri : String) (handler : handlerFunc) : Engine :=
  let paths := buildPaths uri
  { e with getRouter := insertPathsGroup e.getRouter paths (some handler) }

/-- Go `Engine.Post`. -/
def Engine.Post (e : Engine) (uri : String) (handler : handlerFunc) : Engine :=
  let paths := buildPaths uri
  { e with postRouter := insertPathsGroup e.postRouter paths (some handler) }

/-- Go `Engine.GetWebsocket`. -/
def Engine.GetWebsocket (e : Engine) (uri : String) (handler : Actor) (args : List Arg) :
    Engine :=
  let paths := buildPaths uri
  let r := insertPathsGroup e.getRouter paths (some noneFunc)
  { e with
    getRouter := updateNode r paths (fun h => h.setWs handler args)
    hasWebSocket := true }

/-- Go `GetGroup`: the node `h` it points at, named by the keys that lead to it from the
root map `e.getRouter`; the engine `eg` is passed along with each call. -/
structure GetGroup where
  h : List String

/-- Go `PostGroup`: the node `h` it points at, named by the keys that lead to it from the
root map `e.postRouter`; the engine `eg` is passed along with each call. -/
structure PostGroup where
  h : List String

/-- Go `Engine.GetGroup`. -/
def Engine.GetGroup (e : Engine) (uriGroup : String) : Engine × GetGroup :=
  ({ e with getRouter := insertPathsGroup e.getRouter (buildPaths uriGroup) none },
   { h := buildPaths uriGroup })

/-- Go `Engine.PostGroup`. -/
def Engine.PostGroup (e : Engine) (uriGroup : String) : Engine × PostGroup :=
  ({ e with postRouter := insertPathsGroup e.postRouter (buildPaths uriGroup) none },
   { h := buildPaths uriGroup })

/-- The body shared by the registrations of a group whose node is at `gh`:
`paths := buildPaths(uri)[1:]`, the child map of the node is created when it is nil, and
`paths` is inserted in it. -/
def groupInsert (root : router) (gh : List String) (uri : String) (f : Option handlerFunc) :
    router :=
  let paths := (buildPaths uri).drop 1
  updateNode root gh (fun h => h.setR (some (insertPathsGroup (h.r.getD []) paths f)))

/-- Go `GetGroup.Get`. -/
def GetGroup.Get (g : GetGroup) (eg : Engine) (uri : String) (handler : handlerFunc) :
    Engine :=
  { eg with getRouter := groupInsert eg.getRouter g.h uri (some handler) }

/-- Go `GetGroup.GetWebsocket`. -/
def GetGroup.GetWebsocket (g : GetGroup) (eg : Engine) (uri : String) (handler : Actor) :
    Engine :=
  { eg with
    getRouter := updateNode (groupInsert eg.getRouter g.h uri (some noneFunc))
      (g.h ++ (buildPaths uri).drop 1) (fun h => h.setWsActor handler)
    hasWebSocket := true }

/-- Go `GetGroup.Group`. -/
def GetGroup.Group (g : GetGroup) (eg : Engine) (uriGroup : String) : Engine × GetGroup :=
  ({ eg with getRouter := groupInsert eg.getRouter g.h uriGroup none },
   { h := g.h ++ (buildPaths uriGroup).drop 1 })

/-- Go `GetGroup.SetInterceptor`. -/
def GetGroup.SetInterceptor (g : GetGroup) (eg : Engine) (f : Request → Bool) : Engine :=
  { eg with getRouter := updateNode eg.getRouter g.h (fun h => h.setInterceptor (some f)) }

/-- Go `PostGroup.Post`. -/
def PostGroup.Post (g : PostGroup) (eg : Engine) (uri : String) (handler : handlerFunc) :
    Engine :=
  { eg with postRouter := groupInsert eg.postRouter g.h uri (some handler) }

/-- Go `PostGroup.Group`. -/
def PostGroup.Group (g : PostGroup) (eg : Engine) (uriGroup : String) :
    Engine × PostGroup :=
  ({ eg with postRouter := groupInsert eg.postRouter g.h uriGroup none },
   { h := g.h ++ (buildPaths uriGroup).drop 1 })

/-- Go `PostGroup.SetInterceptor`. -/
def PostGroup.SetInterceptor (g : PostGroup) (eg : Engine) (f : Request → Bool) : Engine :=
  { eg with postRouter := updateNode eg.postRouter g.h (fun h => h.setInterceptor (some f)) }

/-! ## Lemmas on the Go primitives -/

theorem goRem_of_nonneg {a n : Int} (ha : 0 ≤ a) (hn : 0 < n) : goRem a n = some (a % n) := by
  unfold goRem
  rw [if_neg (ne_of_gt hn), Int.tmod_eq_emod ha (le_of_lt hn)]

theorem randIntn_of_pos (draw : Nat) {n : Int} (hn : 0 < n) :
    randIntn draw n = some ((draw : Int) % n) := by
  unfold randIntn
  rw [if_neg (not_le.mpr hn), Int.tmod_eq_emod (Int.ofNat_nonneg draw) (le_of_lt hn)]

theorem sliceIndex_of_lt {α : Type} (xs : List α) {i : Int} (h0 : 0 ≤ i)
    (h1 : i < (xs.length : Int)) : ∃ x, sliceIndex xs i = some x := by
  have hlt : i.toNat < xs.length := (Int.toNat_lt h0).mpr h1
  exact ⟨xs[i.toNat], by unfold sliceIndex; rw [if_pos h0, List.getElem?_eq_getElem hlt]⟩

theorem sliceIndex_emod {α : Type} (xs : List α) (a : Int) {n : Int} (hn : 0 < n)
    (hlen : (xs.length : Int) = n) : ∃ x, sliceIndex xs (a % n) = some x :=
  sliceIndex_of_lt xs (Int.emod_nonneg a (ne_of_gt hn))
    (by rw [hlen]; exact Int.emod_lt_of_pos a hn)

theorem castAt_of_some (e : Engine) (i : Int) (r : Request) (pid : Pid)
    (h : sliceIndex e.manager i = some pid) :
    castAt e (some i) r = ([Event.cast i.toNat pid r], true) := by
  simp [castAt, h]

theorem handlerWebSocket_pool (e : Engine) (env : Env) (conn : Conn) (req : HttpRequest)
    (h : handler) (hroute : env.routerHandler e (newRequest req conn) = .ret (.ok h))
    (hws : h.isWs = false) (i : Int) (pid : Pid)
    (hi : (if e.balancing = 1 then randIntn env.randDraw e.managerNum
           else goRem conn.hash e.managerNum) = some i)
    (hpid : sliceIndex e.manager i = some pid) :
    e.handlerWebSocket env conn req =
      { trace := [Event.lookup (newRequest req conn),
                  Event.cast i.toNat pid { newRequest req conn with f := h.f }],
        propagated := false } := by
  by_cases hb : e.balancing = 1
  · rw [if_pos hb] at hi
    simp [Engine.handlerWebSocket, handlerWebSocketBody, hroute, hws, poolBranch, hb, hi,
      castAt, hpid, deferredGuard]
  · rw [if_neg hb] at hi
    simp [Engine.handlerWebSocket, handlerWebSocketBody, hroute, hws, poolBranch, hb, hi,
      castAt, hpid, deferredGuard]

theorem upgradeBranch_no_cast (env : Env) (conn : Conn) (req : HttpRequest) (h : handler) :
    ∀ ev ∈ (upgradeBranch env conn req h).1, ev.isCast = false := by
  unfold upgradeBranch
  cases hu : env.upgrade conn req with
  | fault => simp [Event.isCast]
  | ret a =>
    cases a with
    | error err => simp [Event.isCast]
    | ok c =>
      simp only []
      cases hk : env.kernelStart h.actor (MakeArgs [Arg.chan c, Arg.reqCopy req] ++ h.actorArgs) with
      | fault => simp [Event.isCast]
      | ret b => cases b <;> simp [Event.isCast]

theorem handlerWebSocket_ws_no_cast (e : Engine) (env : Env) (conn : Conn)
    (req : HttpRequest) (h : handler)
    (hroute : env.routerHandler e (newRequest req conn) = .ret (.ok h))
    (hws : h.isWs = true) :
    ∀ ev ∈ (e.handlerWebSocket env conn req).trace, ev.isCast = false := by
  intro ev hev
  have hnc := upgradeBranch_no_cast env conn req h
  simp only [Engine.handlerWebSocket, handlerWebSocketBody, hroute, hws, if_true,
    deferredGuard] at hev
  rw [List.mem_append, List.mem_cons] at hev
  rcases hev with (hev | hev) | hev
  · subst hev; rfl
  · exact hnc ev hev
  · cases hok : (upgradeBranch env conn req h).2 <;> rw [hok] at hev <;>
      simp at hev
    rcases hev with hev | hev <;> subst hev <;> rfl

theorem handlerWebSocket_not_found (e : Engine) (env : Env) (conn : Conn) (req : HttpRequest)
    (err : String) (hroute : env.routerHandler e (newRequest req conn) = .ret (.error err)) :
    ((e.handlerWebSocket env conn req).trace.filter Event.isReply404).length = 1 ∧
    (∀ ev ∈ (e.handlerWebSocket env conn req).trace,
      ev.isCast = false ∧ ev.isUpgrade = false ∧ ev.isKernelStart = false) ∧
    (env.reply404 (newRequest req conn) = .ret () →
      e.handlerWebSocket env conn req =
        { trace := [Event.lookup (newRequest req conn), Event.errorLog "router error",
                    Event.reply404 (newRequest req conn)],
          propagated := false } ∧
      ∀ ev ∈ (e.handlerWebSocket env conn req).trace, ev.isClose = false) := by
  cases h4 : env.reply404 (newRequest req conn) with
  | fault =>
    simp [Engine.handlerWebSocket, handlerWebSocketBody, hroute, h4, deferredGuard,
      Event.isReply404, Event.isCast, Event.isUpgrade, Event.isKernelStart]
  | ret u =>
    simp [Engine.handlerWebSocket, handlerWebSocketBody, hroute, h4, deferredGuard,
      Event.isReply404, Event.isCast, Event.isUpgrade, Event.isKernelStart, Event.isClose]

theorem handlerWebSocket_head (e : Engine) (env : Env) (conn : Conn) (req : HttpRequest) :
    (e.handlerWebSocket env conn req).trace.head? = some (Event.lookup (newRequest req conn)) := by
  cases hr : env.routerHandler e (newRequest req conn) with
  | fault => simp [Engine.handlerWebSocket, handlerWebSocketBody, hr]
  | ret a =>
    cases a with
    | error err =>
      cases h4 : env.reply404 (newRequest req conn) <;>
        simp [Engine.handlerWebSocket, handlerWebSocketBody, hr, h4]
    | ok h => simp [Engine.handlerWebSocket, handlerWebSocketBody, hr]

theorem handlerWebSocket_cast_resolved (e : Engine) (env : Env) (conn : Conn)
    (req : HttpRequest) (ev : Event) (hev : ev ∈ (e.handlerWebSocket env conn req).trace)
    (hc : ev.isCast = true) :
    ∃ h, env.routerHandler e (newRequest req conn) = .ret (.ok h) ∧ h.isWs = false := by
  cases hr : env.routerHandler e (newRequest req conn) with
  | fault =>
    simp [Engine.handlerWebSocket, handlerWebSocketBody, hr, deferredGuard] at hev
    rcases hev with hev | hev | hev <;> subst hev <;> simp [Event.isCast] at hc
  | ret a =>
    cases a with
    | error err =>
      have := ((handlerWebSocket_not_found e env conn req err hr).2.1 ev hev).1
      rw [this] at hc
      cases hc
    | ok h =>
      cases hws : h.isWs
      · exact ⟨h, rfl, hws⟩
      · have := handlerWebSocket_ws_no_cast e env conn req h hr hws ev hev
        rw [this] at hc
        cases hc

theorem castAt_all_cast (e : Engine) (i : Option Int) (r : Request) :
    ∀ ev ∈ (castAt e i r).1, ev.isCast = true := by
  cases i with
  | none => simp [castAt]
  | some i => cases hp : sliceIndex e.manager i <;> simp [castAt, hp, Event.isCast]

theorem handlerWebSocket_pool_no_upgrade (e : Engine) (env : Env) (conn : Conn)
    (req : HttpRequest) (h : handler)
    (hroute : env.routerHandler e (newRequest req conn) = .ret (.ok h))
    (hws : h.isWs = false) :
    ∀ ev ∈ (e.handlerWebSocket env conn req).trace,
      ev.isUpgrade = false ∧ ev.isKernelStart = false := by
  intro ev hev
  simp only [Engine.handlerWebSocket, handlerWebSocketBody, hroute, hws, Bool.false_eq_true,
    if_false, deferredGuard] at hev
  rw [List.mem_append, List.mem_cons] at hev
  rcases hev with (hev | hev) | hev
  · subst hev; exact ⟨rfl, rfl⟩
  · have hc : ev.isCast = true := by
      unfold poolBranch at hev
      by_cases hb : e.balancing = 1
      · rw [if_pos hb] at hev
        exact castAt_all_cast _ _ _ ev hev
      · rw [if_neg hb] at hev
        exact castAt_all_cast _ _ _ ev hev
    cases ev <;> simp [Event.isCast] at hc
    exact ⟨rfl, rfl⟩
  · cases hok : (poolBranch e env conn (newRequest req conn) h).2 <;> rw [hok] at hev <;>
      simp at hev
    rcases hev with hev | hev <;> subst hev <;> exact ⟨rfl, rfl⟩

/-- C1. Sticky-hash dispatch: on an engine whose `managerNum = N >= 1` workers are started,
in a balancing mode other than random, for a connection hash `C >= 0`, `Engine.handler`
and the non-upgrade branch of `Engine.handlerWebSocket` each make exactly one cast, to the
worker `e.manager[C mod N]` at index `C mod N`; a second request on a connection of the
same hash is cast to the same index. -/
theorem sticky_hash_dispatch (e : Engine) (env : Env) (conn : Conn) (req : HttpRequest)
    (h : handler) (hbal : e.balancing ≠ 1) (hN : 0 < e.managerNum)
    (hlen : (e.manager.length : Int) = e.managerNum) (hC : 0 ≤ conn.hash)
    (hroute : env.routerHandler e (newRequest req conn) = .ret (.ok h))
    (hws : h.isWs = false) :
    ∃ pid, sliceIndex e.manager (conn.hash % e.managerNum) = some pid ∧
      e.handler conn req =
        { trace := [Event.cast (conn.hash % e.managerNum).toNat pid (newRequest req conn)],
          propagated := false } ∧
      e.handlerWebSocket env conn req =
        { trace := [Event.lookup (newRequest req conn),
                    Event.cast (conn.hash % e.managerNum).toNat pid
                      { newRequest req conn with f := h.f }],
          propagated := false } ∧
      ∀ (conn2 : Conn) (req2 : HttpRequest), conn2.hash = conn.hash →
        env.routerHandler e (newRequest req2 conn2) = .ret (.ok h) →
        castIndices (e.handler conn2 req2).trace = castIndices (e.handler conn req).trace ∧
        castIndices (e.handlerWebSocket env conn2 req2).trace =
          castIndices (e.handlerWebSocket env conn req).trace := by
  obtain ⟨pid, hpid⟩ := sliceIndex_emod e.manager conn.hash hN hlen
  have hrem : goRem conn.hash e.managerNum = some (conn.hash % e.managerNum) :=
    goRem_of_nonneg hC hN
  have hH : ∀ (c : Conn) (q : HttpRequest), c.hash = conn.hash →
      e.handler c q =
        { trace := [Event.cast (conn.hash % e.managerNum).toNat pid (newRequest q c)],
          propagated := false } := by
    intro c q hc
    simp [Engine.handler, hc, hrem, castAt, hpid]
  have hW : ∀ (c : Conn) (q : HttpRequest), c.hash = conn.hash →
      env.routerHandler e (newRequest q c) = .ret (.ok h) →
      e.handlerWebSocket env c q =
        { trace := [Event.lookup (newRequest q c),
                    Event.cast (conn.hash % e.managerNum).toNat pid
                      { newRequest q c with f := h.f }],
          propagated := false } := by
    intro c q hc hr
    exact handlerWebSocket_pool e env c q h hr hws _ pid
      (by rw [if_neg hbal, hc]; exact hrem) hpid
  refine ⟨pid, hpid, hH conn req rfl, hW conn req rfl hroute, ?_⟩
  intro conn2 req2 hc hr
  rw [hH conn2 req2 hc, hH conn req rfl, hW conn2 req2 hc hr, hW conn req rfl hroute]
  simp [castIndices]

theorem sticky_hash_dispatch_witness :
    sliceIndex sampleEngine.manager ((10 : Int) % 4) = some 102 ∧
    sampleEngine.handler sampleConn sampleReq =
      { trace := [Event.cast 2 102 (newRequest sampleReq sampleConn)], propagated := false } ∧
    sampleEngine.handlerWebSocket (sampleEnv sampleHandler) sampleConn sampleReq =
      { trace := [Event.lookup (newRequest sampleReq sampleConn),
                  Event.cast 2 102 { newRequest sampleReq sampleConn with f := some 7 }],
        propagated := false } := by
  obtain ⟨pid, h1, h2, h3, _⟩ := sticky_hash_dispatch sampleEngine (sampleEnv sampleHandler)
    sampleConn sampleReq sampleHandler (by decide) (by decide) (by decide) (by decide) rfl rfl
  have hp : pid = 102 := by
    have h0 : sliceIndex sampleEngine.manager (sampleConn.hash % sampleEngine.managerNum)
        = some 102 := by decide
    rw [h0] at h1
    exact (Option.some.inj h1).symm
  subst hp
  exact ⟨h1, h2, h3⟩

/-- C2. Upgrade and pool dispatch exclude each other in `Engine.handlerWebSocket`: when the
route lookup succeeds with a node `h`, then if `h.isWs` no cast to a pool worker is made,
whatever the handshake and the worker start do; and if `h.isWs` is false neither
`websocket.Upgrade` nor `kernel.Start` is called, and (on an engine whose
`managerNum >= 1` workers are started, for a connection hash `>= 0`) exactly one cast is
made. -/
theorem upgrade_pool_exclusive (e : Engine) (env : Env) (conn : Conn) (req : HttpRequest)
    (h : handler) (hroute : env.routerHandler e (newRequest req conn) = .ret (.ok h)) :
    (h.isWs = true →
      ∀ ev ∈ (e.handlerWebSocket env conn req).trace, ev.isCast = false) ∧
    (h.isWs = false →
      (∀ ev ∈ (e.handlerWebSocket env conn req).trace,
        ev.isUpgrade = false ∧ ev.isKernelStart = false) ∧
      (0 < e.managerNum → (e.manager.length : Int) = e.managerNum → 0 ≤ conn.hash →
        ((e.handlerWebSocket env conn req).trace.filter Event.isCast).length = 1)) := by
  constructor
  · intro hws
    exact handlerWebSocket_ws_no_cast e env conn req h hroute hws
  · intro hws
    refine ⟨handlerWebSocket_pool_no_upgrade e env conn req h hroute hws, ?_⟩
    intro hN hlen hC
    have hidx : ∃ i, (if e.balancing = 1 then randIntn env.randDraw e.managerNum
        else goRem conn.hash e.managerNum) = some i ∧ ∃ pid, sliceIndex e.manager i = some pid := by
      by_cases hb : e.balancing = 1
      · rw [if_pos hb, randIntn_of_pos env.randDraw hN]
        exact ⟨_, rfl, sliceIndex_emod e.manager _ hN hlen⟩
      · rw [if_neg hb, goRem_of_nonneg hC hN]
        exact ⟨_, rfl, sliceIndex_emod e.manager _ hN hlen⟩
    obtain ⟨i, hi, pid, hpid⟩ := hidx
    rw [handlerWebSocket_pool e env conn req h hroute hws i pid hi hpid]
    simp [Event.isCast]

theorem upgrade_pool_exclusive_witness :
    (sampleEngine.handlerWebSocket (sampleEnv sampleWsHandler) sampleConn
        sampleReq).trace.filter Event.isCast = [] ∧
    ((sampleEngineRand.handlerWebSocket (sampleEnv sampleHandler) sampleConn
        sampleReq).trace.filter Event.isCast).length = 1 := by
  have h1 := (upgrade_pool_exclusive sampleEngine (sampleEnv sampleWsHandler) sampleConn
    sampleReq sampleWsHandler rfl).1 rfl
  have h2 := ((upgrade_pool_exclusive sampleEngineRand (sampleEnv sampleHandler) sampleConn
    sampleReq sampleHandler rfl).2 rfl).2 (by decide) (by decide) (by decide)
  refine ⟨?_, h2⟩
  rw [List.filter_eq_nil_iff]
  intro ev hev
  rw [h1 ev hev]
  simp

/-- C3. Failed upgrade in `Engine.handlerWebSocket`, for a request matched to an
upgrade-eligible route: when the handshake returns an error the engine logs it and closes
the connection, and `kernel.Start` is not called; when the handshake returns a channel `c`
and `kernel.Start` returns an error the engine logs it and closes the connection.  In both
cases the trace holds no `SetHandler`, no `SetSession` and no cast, and exactly one close. -/
theorem failed_upgrade (e : Engine) (env : Env) (conn : Conn) (req : HttpRequest)
    (h : handler) (hroute : env.routerHandler e (newRequest req conn) = .ret (.ok h))
    (hws : h.isWs = true) :
    (∀ err, env.upgrade conn req = .ret (.error err) →
      e.handlerWebSocket env conn req =
        { trace := [Event.lookup (newRequest req conn), Event.upgrade conn req,
                    Event.errorLog "upgrade error", Event.close conn],
          propagated := false }) ∧
    (∀ c err, env.upgrade conn req = .ret (.ok c) →
      env.kernelStart h.actor ([Arg.chan c, Arg.reqCopy req] ++ h.actorArgs)
        = .ret (.error err) →
      e.handlerWebSocket env conn req =
        { trace := [Event.lookup (newRequest req conn), Event.upgrade conn req,
                    Event.kernelStart h.actor ([Arg.chan c, Arg.reqCopy req] ++ h.actorArgs),
                    Event.errorLog "start handler error", Event.close conn],
          propagated := false }) ∧
    ((∃ err, env.upgrade conn req = .ret (.error err)) ∨
     (∃ c err, env.upgrade conn req = .ret (.ok c) ∧
        env.kernelStart h.actor ([Arg.chan c, Arg.reqCopy req] ++ h.actorArgs)
          = .ret (.error err)) →
      (∀ ev ∈ (e.handlerWebSocket env conn req).trace,
        ev.isBind = false ∧ ev.isCast = false) ∧
      ((e.handlerWebSocket env conn req).trace.filter Event.isClose).length = 1 ∧
      ((∃ err, env.upgrade conn req = .ret (.error err)) →
        ∀ ev ∈ (e.handlerWebSocket env conn req).trace, ev.isKernelStart = false)) := by
  have h1 : ∀ err, env.upgrade conn req = .ret (.error err) →
      e.handlerWebSocket env conn req =
        { trace := [Event.lookup (newRequest req conn), Event.upgrade conn req,
                    Event.errorLog "upgrade error", Event.close conn],
          propagated := false } := by
    intro err hu
    simp [Engine.handlerWebSocket, handlerWebSocketBody, hroute, hws, upgradeBranch, hu,
      deferredGuard]
  have h2 : ∀ c err, env.upgrade conn req = .ret (.ok c) →
      env.kernelStart h.actor ([Arg.chan c, Arg.reqCopy req] ++ h.actorArgs)
        = .ret (.error err) →
      e.handlerWebSocket env conn req =
        { trace := [Event.lookup (newRequest req conn), Event.upgrade conn req,
                    Event.kernelStart h.actor ([Arg.chan c, Arg.reqCopy req] ++ h.actorArgs),
                    Event.errorLog "start handler error", Event.close conn],
          propagated := false } := by
    intro c err hu hk
    simp only [List.cons_append, List.nil_append] at hk
    simp [Engine.handlerWebSocket, handlerWebSocketBody, hroute, hws, upgradeBranch, hu,
      MakeArgs, hk, deferredGuard]
  refine ⟨h1, h2, ?_⟩
  rintro (⟨err, hu⟩ | ⟨c, err, hu, hk⟩)
  · rw [h1 err hu]
    simp [Event.isBind, Event.isCast, Event.isClose, Event.isKernelStart]
  · rw [h2 c err hu hk]
    refine ⟨by simp [Event.isBind, Event.isCast], by simp [Event.isClose], ?_⟩
    rintro ⟨err2, hu2⟩
    rw [hu] at hu2
    cases hu2

theorem failed_upgrade_witness :
    sampleEngine.handlerWebSocket sampleEnvUpgradeFails sampleConn sampleReq =
      { trace := [Event.lookup (newRequest sampleReq sampleConn),
                  Event.upgrade sampleConn sampleReq,
                  Event.errorLog "upgrade error", Event.close sampleConn],
        propagated := false } :=
  (failed_upgrade sampleEngine sampleEnvUpgradeFails sampleConn sampleReq sampleWsHandler
    rfl rfl).1 "bad handshake" rfl

/-- C4. Successful upgrade in `Engine.handlerWebSocket`: for a request matched to an
upgrade-eligible route whose handshake returns a channel `c` and whose worker start
returns `pid`, the engine calls `kernel.Start` exactly once, with the actor of the route
and the arguments `c`, the copy of the request, then the registered `actorArgs` in order;
it sets `pid` as the handler of `c` and `c` as the session of the connection; it closes
nothing and casts nothing.  The node `GetWebsocket` configures is upgrade-eligible and
holds the actor and the arguments of the registration. -/
theorem successful_upgrade (e : Engine) (env : Env) (conn : Conn) (req : HttpRequest)
    (h : handler) (c : WsConn) (pid : Pid)
    (hroute : env.routerHandler e (newRequest req conn) = .ret (.ok h))
    (hws : h.isWs = true) (hu : env.upgrade conn req = .ret (.ok c))
    (hk : env.kernelStart h.actor ([Arg.chan c, Arg.reqCopy req] ++ h.actorArgs)
      = .ret (.ok pid)) :
    e.handlerWebSocket env conn req =
      { trace := [Event.lookup (newRequest req conn), Event.upgrade conn req,
                  Event.kernelStart h.actor ([Arg.chan c, Arg.reqCopy req] ++ h.actorArgs),
                  Event.setHandler c pid, Event.setSession conn c],
        propagated := false } ∧
    ((e.handlerWebSocket env conn req).trace.filter Event.isKernelStart).length = 1 ∧
    (∀ ev ∈ (e.handlerWebSocket env conn req).trace,
      ev.isClose = false ∧ ev.isCast = false) ∧
    ∀ (h0 : handler) (actor : Actor) (args : List Arg),
      (h0.setWs actor args).isWs = true ∧ (h0.setWs actor args).actor = some actor ∧
      (h0.setWs actor args).actorArgs = args := by
  have hset : ∀ (h0 : handler) (actor : Actor) (args : List Arg),
      (h0.setWs actor args).isWs = true ∧ (h0.setWs actor args).actor = some actor ∧
      (h0.setWs actor args).actorArgs = args := by
    intro h0 actor args
    cases h0
    exact ⟨rfl, rfl, rfl⟩
  have h1 : e.handlerWebSocket env conn req =
      { trace := [Event.lookup (newRequest req conn), Event.upgrade conn req,
                  Event.kernelStart h.actor ([Arg.chan c, Arg.reqCopy req] ++ h.actorArgs),
                  Event.setHandler c pid, Event.setSession conn c],
        propagated := false } := by
    simp only [List.cons_append, List.nil_append] at hk
    simp [Engine.handlerWebSocket, handlerWebSocketBody, hroute, hws, upgradeBranch, hu,
      MakeArgs, hk, deferredGuard]
  rw [h1]
  refine ⟨rfl, by simp [Event.isKernelStart], by simp [Event.isClose, Event.isCast], hset⟩

theorem successful_upgrade_witness :
    sampleEngine.handlerWebSocket (sampleEnv sampleWsHandler) sampleConn sampleReq =
      { trace := [Event.lookup (newRequest sampleReq sampleConn),
                  Event.upgrade sampleConn sampleReq,
                  Event.kernelStart (some 3)
                    [Arg.chan 55, Arg.reqCopy sampleReq, Arg.user 11, Arg.user 12],
                  Event.setHandler 55 200, Event.setSession sampleConn 55],
        propagated := false } :=
  (successful_upgrade sampleEngine (sampleEnv sampleWsHandler) sampleConn sampleReq
    sampleWsHandler 55 200 rfl rfl rfl rfl).1

theorem handlerWebSocketBody_ok (e : Engine) (env : Env) (conn : Conn) (req : HttpRequest) :
    (handlerWebSocketBody e env conn req).2 = !faultRaised e env conn req := by
  cases hr : env.routerHandler e (newRequest req conn) with
  | fault => simp [handlerWebSocketBody, faultRaised, hr]
  | ret a =>
    cases a with
    | error err =>
      cases h4 : env.reply404 (newRequest req conn) <;>
        simp [handlerWebSocketBody, faultRaised, hr, h4]
    | ok h =>
      cases hws : h.isWs
      · by_cases hb : e.balancing = 1
        · cases hi : randIntn env.randDraw e.managerNum with
          | none => simp [handlerWebSocketBody, faultRaised, hr, hws, poolBranch, hb, hi, castAt]
          | some i =>
            cases hp : sliceIndex e.manager i <;>
              simp [handlerWebSocketBody, faultRaised, hr, hws, poolBranch, hb, hi, castAt, hp]
        · cases hi : goRem conn.hash e.managerNum with
          | none => simp [handlerWebSocketBody, faultRaised, hr, hws, poolBranch, hb, hi, castAt]
          | some i =>
            cases hp : sliceIndex e.manager i <;>
              simp [handlerWebSocketBody, faultRaised, hr, hws, poolBranch, hb, hi, castAt, hp]
      · cases hu : env.upgrade conn req with
        | fault => simp [handlerWebSocketBody, faultRaised, hr, hws, upgradeBranch, hu]
        | ret b =>
          cases b with
          | error err => simp [handlerWebSocketBody, faultRaised, hr, hws, upgradeBranch, hu]
          | ok c =>
            cases hk : env.kernelStart h.actor
                (Arg.chan c :: Arg.reqCopy req :: h.actorArgs) with
            | fault =>
              simp [handlerWebSocketBody, faultRaised, hr, hws, upgradeBranch, hu, MakeArgs, hk]
            | ret d =>
              cases d <;>
                simp [handlerWebSocketBody, faultRaised, hr, hws, upgradeBranch, hu, MakeArgs, hk]

/-- C5. Fault containment in `Engine.handlerWebSocket`: no fault reaches the caller; when
a fault is raised in the body (in the route lookup, the handshake, the worker start, the
dispatch or the not-found reply) the deferred guard closes the connection, the close being
the last action; when no fault is raised the deferred guard adds no action, so it closes
nothing. -/
theorem fault_containment (e : Engine) (env : Env) (conn : Conn) (req : HttpRequest) :
    (e.handlerWebSocket env conn req).propagated = false ∧
    (faultRaised e env conn req = true →
      (e.handlerWebSocket env conn req).trace =
        (handlerWebSocketBody e env conn req).1 ++
          [Event.errorLog "catch error", Event.close conn] ∧
      (e.handlerWebSocket env conn req).trace.getLast? = some (Event.close conn)) ∧
    (faultRaised e env conn req = false →
      (e.handlerWebSocket env conn req).trace = (handlerWebSocketBody e env conn req).1) := by
  have hok := handlerWebSocketBody_ok e env conn req
  have hprop : (e.handlerWebSocket env conn req).propagated = false := by
    cases hb : (handlerWebSocketBody e env conn req).2 <;>
      simp [Engine.handlerWebSocket, deferredGuard, hb]
  refine ⟨hprop, ?_, ?_⟩
  · intro hf
    rw [hf] at hok
    have ht : (e.handlerWebSocket env conn req).trace =
        (handlerWebSocketBody e env conn req).1 ++
          [Event.errorLog "catch error", Event.close conn] := by
      simp [Engine.handlerWebSocket, hok, deferredGuard]
    refine ⟨ht, ?_⟩
    rw [ht]
    simp
  · intro hf
    rw [hf] at hok
    simp [Engine.handlerWebSocket, hok, deferredGuard]

/-- C6. Route not found in `Engine.handlerWebSocket`: when the route lookup returns an
error, the engine logs it and calls `reply404` once; it casts nothing, attempts no upgrade
and starts no worker; and when `reply404` returns, the engine does not close the
connection. -/
theorem route_not_found (e : Engine) (env : Env) (conn : Conn) (req : HttpRequest)
    (err : String) (hroute : env.routerHandler e (newRequest req conn) = .ret (.error err)) :
    ((e.handlerWebSocket env conn req).trace.filter Event.isReply404).length = 1 ∧
    (∀ ev ∈ (e.handlerWebSocket env conn req).trace,
      ev.isCast = false ∧ ev.isUpgrade = false ∧ ev.isKernelStart = false) ∧
    (env.reply404 (newRequest req conn) = .ret () →
      e.handlerWebSocket env conn req =
        { trace := [Event.lookup (newRequest req conn), Event.errorLog "router error",
                    Event.reply404 (newRequest req conn)],
          propagated := false } ∧
      ∀ ev ∈ (e.handlerWebSocket env conn req).trace, ev.isClose = false) :=
  handlerWebSocket_not_found e env conn req err hroute

theorem route_not_found_witness :
    sampleEngine.handlerWebSocket sampleEnvNotFound sampleConn sampleReq =
      { trace := [Event.lookup (newRequest sampleReq sampleConn),
                  Event.errorLog "router error",
                  Event.reply404 (newRequest sampleReq sampleConn)],
        propagated := false } :=
  ((route_not_found sampleEngine sampleEnvNotFound sampleConn sampleReq "not found" rfl).2.2
    rfl).1

theorem fault_containment_witness :
    faultRaised sampleEngine sampleEnvStartFaults sampleConn sampleReq = true ∧
    (sampleEngine.handlerWebSocket sampleEnvStartFaults sampleConn sampleReq).propagated
      = false ∧
    (sampleEngine.handlerWebSocket sampleEnvStartFaults sampleConn sampleReq).trace.getLast?
      = some (Event.close sampleConn) :=
  ⟨rfl, (fault_containment sampleEngine sampleEnvStartFaults sampleConn sampleReq).1,
    ((fault_containment sampleEngine sampleEnvStartFaults sampleConn sampleReq).2.1 rfl).2⟩

/-! ## Start-up and callback selection -/

theorem startManagers_eq (env : Env) (sup : Pid) (n i : Nat) (m : List Pid) :
    startManagers env sup n i m =
      (m ++ (List.range' i n).map (env.supStartChild sup),
       (List.range' i n).map (Event.supStartChild sup)) := by
  induction n generalizing i m with
  | zero => simp [startManagers]
  | succ n ih => simp [startManagers, ih, List.range'_succ]

theorem buildAddr_fields (e : Engine) :
    e.buildAddr.1.manager = e.manager ∧ e.buildAddr.1.managerNum = e.managerNum ∧
    e.buildAddr.1.hasWebSocket = e.hasWebSocket ∧ e.buildAddr.1.balancing = e.balancing := by
  unfold Engine.buildAddr
  by_cases hp : e.port = 0 <;> by_cases ha : e.addr.length = 0 <;> simp [hp, ha]

theorem listen_fields (e : Engine) (env : Env) (t : List Event) :
    (e.listen env t).1.manager = e.manager ∧
    (e.listen env t).1.managerNum = e.managerNum ∧
    (e.listen env t).1.hasWebSocket = e.hasWebSocket ∧
    (e.listen env t).1.balancing = e.balancing ∧
    (e.listen env t).2.1 = selectCallback e ∧
    (e.listen env t).2.2.trace = t ++ [Event.gopherStart e.buildAddr.2] := by
  obtain ⟨hb1, hb2, hb3, hb4⟩ := buildAddr_fields e
  have hsel : selectCallback e.buildAddr.1 = selectCallback e := by
    simp only [selectCallback, hb3, hb4]
  unfold Engine.listen
  by_cases hg : env.gopherStart = true <;> by_cases hw : e.hasWebSocket = true <;>
    simp [hg, hw, hb1, hb2, hb3, hb4, hsel]

theorem start_fields (e : Engine) (env : Env) (sup : Pid) :
    (e.start env sup).1.manager =
      e.manager ++ (List.range e.managerNum.toNat).map (env.supStartChild sup) ∧
    (e.start env sup).1.managerNum = e.managerNum ∧
    (e.start env sup).1.hasWebSocket = e.hasWebSocket ∧
    (e.start env sup).1.balancing = e.balancing ∧
    (e.start env sup).2.1 = selectCallback e ∧
    ∃ addrs, (e.start env sup).2.2.trace =
      (List.range e.managerNum.toNat).map (Event.supStartChild sup) ++
        [Event.gopherStart addrs] := by
  obtain ⟨h1, h2, h3, h4, h5, h6⟩ := listen_fields
    { e with manager := (startManagers env sup e.managerNum.toNat 0 e.manager).1 } env
    (startManagers env sup e.managerNum.toNat 0 e.manager).2
  have hs : e.start env sup = Engine.listen
      { e with manager := (startManagers env sup e.managerNum.toNat 0 e.manager).1 } env
      (startManagers env sup e.managerNum.toNat 0 e.manager).2 := rfl
  rw [hs]
  refine ⟨?_, h2, h3, h4, ?_, ⟨(Engine.buildAddr
    { e with manager := (startManagers env sup e.managerNum.toNat 0 e.manager).1 }).2, ?_⟩⟩
  · rw [h1]; simp [startManagers_eq, List.range_eq_range']
  · rw [h5]; rfl
  · rw [h6]; simp [startManagers_eq, List.range_eq_range']

/-- C7, as stated, fails: on an engine without an upgrade route the callback `Engine.start`
installs is `Engine.handler`; for a request whose route lookup would return an error it
makes no lookup and no not-found reply, and casts the request to pool worker 2. -/
theorem lookup_before_dispatch_counterexample :
    ((New 4 "web" 8080 []).start sampleEnvNotFound 1).2.1 = Callback.handler ∧
    sampleEnvNotFound.routerHandler ((New 4 "web" 8080 []).start sampleEnvNotFound 1).1
      (newRequest sampleReq sampleConn) = .ret (.error "not found") ∧
    (((New 4 "web" 8080 []).start sampleEnvNotFound 1).2.1.run
        ((New 4 "web" 8080 []).start sampleEnvNotFound 1).1 sampleEnvNotFound sampleConn
        sampleReq).trace = [Event.cast 2 102 (newRequest sampleReq sampleConn)] := by
  refine ⟨by decide, rfl, by decide⟩

/-- C7, amended. On an engine with a registered upgrade route (`hasWebSocket`), the callback
`Engine.start` installs is `Engine.handlerWebSocket`: its first action is the route lookup,
it casts to a pool worker only when the lookup returned a node that is not
upgrade-eligible (and then, on an engine started from an empty `e.manager` with
`managerNum >= 1`, for a connection hash `>= 0`, it makes exactly that one cast after the
lookup), and when the lookup returns an error it calls `reply404` once and casts nothing.
On an engine without an upgrade route the callback is `Engine.handlerRand` when
`balancing = 1` and `Engine.handler` otherwise; it makes no lookup and no not-found reply
(its only actions are casts), and on an engine started from an empty `e.manager` with
`managerNum >= 1`, for a connection hash `>= 0`, it enqueues every request: its trace is
exactly one cast of the request, to the worker at index `draw mod N` in random mode and
`hash mod N` otherwise, whatever the route lookup would return. -/
theorem lookup_before_dispatch_amended (e : Engine) (env : Env) (sup : Pid) (conn : Conn)
    (req : HttpRequest) :
    (e.hasWebSocket = true →
      (e.start env sup).2.1 = Callback.handlerWebSocket ∧
      ((e.start env sup).2.1.run (e.start env sup).1 env conn req).trace.head?
        = some (Event.lookup (newRequest req conn)) ∧
      (∀ ev ∈ ((e.start env sup).2.1.run (e.start env sup).1 env conn req).trace,
        ev.isCast = true →
        ∃ h, env.routerHandler (e.start env sup).1 (newRequest req conn) = .ret (.ok h) ∧
          h.isWs = false) ∧
      (∀ err, env.routerHandler (e.start env sup).1 (newRequest req conn)
          = .ret (.error err) →
        (((e.start env sup).2.1.run (e.start env sup).1 env conn req).trace.filter
          Event.isReply404).length = 1 ∧
        ∀ ev ∈ ((e.start env sup).2.1.run (e.start env sup).1 env conn req).trace,
          ev.isCast = false) ∧
      (e.manager = [] → 1 ≤ e.managerNum → 0 ≤ conn.hash →
        ∀ h, env.routerHandler (e.start env sup).1 (newRequest req conn) = .ret (.ok h) →
          h.isWs = false →
          ∃ pid, sliceIndex (e.start env sup).1.manager
              (if e.balancing = 1 then (env.randDraw : Int) % e.managerNum
               else conn.hash % e.managerNum) = some pid ∧
            (e.start env sup).2.1.run (e.start env sup).1 env conn req =
              { trace := [Event.lookup (newRequest req conn),
                          Event.cast (if e.balancing = 1 then (env.randDraw : Int) % e.managerNum
                            else conn.hash % e.managerNum).toNat pid
                            { newRequest req conn with f := h.f }],
                propagated := false })) ∧
    (e.hasWebSocket = false →
      (e.balancing = 1 → (e.start env sup).2.1 = Callback.handlerRand) ∧
      (e.balancing ≠ 1 → (e.start env sup).2.1 = Callback.handler) ∧
      (∀ ev ∈ ((e.start env sup).2.1.run (e.start env sup).1 env conn req).trace,
        ev.isCast = true) ∧
      (e.manager = [] → 1 ≤ e.managerNum → 0 ≤ conn.hash →
        ∃ pid, sliceIndex (e.start env sup).1.manager
            (if e.balancing = 1 then (env.randDraw : Int) % e.managerNum
             else conn.hash % e.managerNum) = some pid ∧
          (e.start env sup).2.1.run (e.start env sup).1 env conn req =
            { trace := [Event.cast (if e.balancing = 1 then (env.randDraw : Int) % e.managerNum
                          else conn.hash % e.managerNum).toNat pid (newRequest req conn)],
              propagated := false })) := by
  obtain ⟨hm, hn, _, hbal, hsel, _⟩ := start_fields e env sup
  have hstarted : e.manager = [] → 1 ≤ e.managerNum →
      0 < e.managerNum ∧ ((e.start env sup).1.manager.length : Int) = e.managerNum := by
    intro hfresh hN
    have hpos : 0 < e.managerNum := hN
    refine ⟨hpos, ?_⟩
    rw [hm, hfresh]
    simp [Int.toNat_of_nonneg (le_of_lt hpos)]
  constructor
  · intro hw
    have hcb : (e.start env sup).2.1 = Callback.handlerWebSocket := by
      rw [hsel]; simp [selectCallback, hw]
    rw [hcb]
    refine ⟨rfl, handlerWebSocket_head _ env conn req, ?_, ?_, ?_⟩
    · intro ev hev hc
      exact handlerWebSocket_cast_resolved _ env conn req ev hev hc
    · intro err hr
      have h := handlerWebSocket_not_found _ env conn req err hr
      exact ⟨h.1, fun ev hev => (h.2.1 ev hev).1⟩
    · intro hfresh hN hC h hroute hws
      obtain ⟨hpos, hlen⟩ := hstarted hfresh hN
      by_cases hb : e.balancing = 1
      · obtain ⟨pid, hpid⟩ := sliceIndex_emod (e.start env sup).1.manager
          (env.randDraw : Int) hpos hlen
        simp only [hb, if_true]
        refine ⟨pid, hpid, ?_⟩
        exact handlerWebSocket_pool _ env conn req h hroute hws _ pid
          (by rw [hbal, if_pos hb, hn]; exact randIntn_of_pos env.randDraw hpos) hpid
      · obtain ⟨pid, hpid⟩ := sliceIndex_emod (e.start env sup).1.manager conn.hash hpos hlen
        simp only [hb, if_false]
        refine ⟨pid, hpid, ?_⟩
        exact handlerWebSocket_pool _ env conn req h hroute hws _ pid
          (by rw [hbal, if_neg hb, hn]; exact goRem_of_nonneg hC hpos) hpid
  · intro hw
    have hrand : e.balancing = 1 → (e.start env sup).2.1 = Callback.handlerRand := by
      intro hb; rw [hsel]; simp [selectCallback, hw, hb]
    have hhash : e.balancing ≠ 1 → (e.start env sup).2.1 = Callback.handler := by
      intro hb; rw [hsel]; simp [selectCallback, hw, hb]
    refine ⟨hrand, hhash, ?_, ?_⟩
    · by_cases hb : e.balancing = 1
      · rw [hrand hb]; exact castAt_all_cast _ _ _
      · rw [hhash hb]; exact castAt_all_cast _ _ _
    · intro hfresh hN hC
      obtain ⟨hpos, hlen⟩ := hstarted hfresh hN
      by_cases hb : e.balancing = 1
      · obtain ⟨pid, hpid⟩ := sliceIndex_emod (e.start env sup).1.manager
          (env.randDraw : Int) hpos hlen
        simp only [hb, if_true]
        refine ⟨pid, hpid, ?_⟩
        rw [hrand hb]
        simp [Callback.run, Engine.handlerRand, hn, randIntn_of_pos env.randDraw hpos, castAt,
          hpid]
      · obtain ⟨pid, hpid⟩ := sliceIndex_emod (e.start env sup).1.manager conn.hash hpos hlen
        simp only [hb, if_false]
        refine ⟨pid, hpid, ?_⟩
        rw [hhash hb]
        simp [Callback.run, Engine.handler, hn, goRem_of_nonneg hC hpos, castAt, hpid]

theorem lookup_before_dispatch_amended_witness :
    (({ New 4 "web" 8080 [] with hasWebSocket := true }).start sampleEnvNotFound 1).2.1
      = Callback.handlerWebSocket ∧
    ((({ New 4 "web" 8080 [] with hasWebSocket := true }).start sampleEnvNotFound 1).2.1.run
        (({ New 4 "web" 8080 [] with hasWebSocket := true }).start sampleEnvNotFound 1).1
        sampleEnvNotFound sampleConn sampleReq).trace.head?
      = some (Event.lookup (newRequest sampleReq sampleConn)) ∧
    (({ New 4 "web" 8080 [] with balancing := 1 }).start sampleEnvNotFound 1).2.1
      = Callback.handlerRand ∧
    (({ New 4 "web" 8080 [] with balancing := 1 }).start sampleEnvNotFound 1).2.1.run
        (({ New 4 "web" 8080 [] with balancing := 1 }).start sampleEnvNotFound 1).1
        sampleEnvNotFound sampleConn sampleReq
      = { trace := [Event.cast 2 102 (newRequest sampleReq sampleConn)],
          propagated := false } := by
  have hws := (lookup_before_dispatch_amended
    ({ New 4 "web" 8080 [] with hasWebSocket := true }) sampleEnvNotFound 1 sampleConn
    sampleReq).1 rfl
  have hpool := (lookup_before_dispatch_amended
    ({ New 4 "web" 8080 [] with balancing := 1 }) sampleEnvNotFound 1 sampleConn
    sampleReq).2 rfl
  refine ⟨hws.1, hws.2.1, hpool.1 rfl, ?_⟩
  obtain ⟨pid, h1, h2⟩ := hpool.2.2.2 rfl (by decide) (by decide)
  have hp : pid = 102 := by
    have h0 : sliceIndex
        (({ New 4 "web" 8080 [] with balancing := 1 }).start sampleEnvNotFound 1).1.manager
        (if ({ New 4 "web" 8080 [] with balancing := 1 } : Engine).balancing = 1
          then (sampleEnvNotFound.randDraw : Int) %
            ({ New 4 "web" 8080 [] with balancing := 1 } : Engine).managerNum
          else sampleConn.hash %
            ({ New 4 "web" 8080 [] with balancing := 1 } : Engine).managerNum)
        = some 102 := by decide
    rw [h0] at h1
    exact (Option.some.inj h1).symm
  subst hp
  exact h2

/-- C8. No dispatch to a worker that is not started: `Engine.start` on an engine with an
empty `e.manager` and `managerNum >= 1` makes exactly `managerNum` calls of
`kernel.SupStartChild`, all before the listener is started, and leaves the `managerNum`
pids they return in `e.manager`; afterwards, for every connection hash `>= 0` and every
draw of the random source, the index expressions of `handler`, `handlerRand` and
`handlerWebSocket` evaluate to an index of `[0, managerNum)` at which `e.manager` holds a
worker, so that no callback faults in its dispatch. -/
theorem no_unstarted_worker (e : Engine) (env : Env) (sup : Pid) (hfresh : e.manager = [])
    (hN : 1 ≤ e.managerNum) :
    ((e.start env sup).1.manager.length : Int) = e.managerNum ∧
    (e.start env sup).1.manager =
      (List.range e.managerNum.toNat).map (env.supStartChild sup) ∧
    (∃ addrs, (e.start env sup).2.2.trace =
      (List.range e.managerNum.toNat).map (Event.supStartChild sup) ++
        [Event.gopherStart addrs]) ∧
    ∀ (conn : Conn) (req : HttpRequest), 0 ≤ conn.hash →
      (∃ i, goRem conn.hash (e.start env sup).1.managerNum = some i ∧ 0 ≤ i ∧
        i < e.managerNum ∧ (sliceIndex (e.start env sup).1.manager i).isSome = true) ∧
      (∃ i, randIntn env.randDraw (e.start env sup).1.managerNum = some i ∧ 0 ≤ i ∧
        i < e.managerNum ∧ (sliceIndex (e.start env sup).1.manager i).isSome = true) ∧
      ((e.start env sup).1.handler conn req).propagated = false ∧
      ((e.start env sup).1.handlerRand env conn req).propagated = false ∧
      ∀ h, env.routerHandler (e.start env sup).1 (newRequest req conn) = .ret (.ok h) →
        h.isWs = false → faultRaised (e.start env sup).1 env conn req = false := by
  obtain ⟨hm, hn, _, _, _, htr⟩ := start_fields e env sup
  have hpos : 0 < e.managerNum := hN
  have hlen : ((e.start env sup).1.manager.length : Int) = e.managerNum := by
    rw [hm, hfresh]
    simp [Int.toNat_of_nonneg (le_of_lt hpos)]
  refine ⟨hlen, by rw [hm, hfresh]; simp, htr, ?_⟩
  intro conn req hC
  rw [hn]
  have hg := goRem_of_nonneg hC hpos
  have hr := randIntn_of_pos env.randDraw hpos
  obtain ⟨p1, hp1⟩ := sliceIndex_emod (e.start env sup).1.manager conn.hash hpos hlen
  obtain ⟨p2, hp2⟩ := sliceIndex_emod (e.start env sup).1.manager (env.randDraw : Int)
    hpos hlen
  refine ⟨⟨_, hg, Int.emod_nonneg _ (ne_of_gt hpos), Int.emod_lt_of_pos _ hpos, by simp [hp1]⟩,
    ⟨_, hr, Int.emod_nonneg _ (ne_of_gt hpos), Int.emod_lt_of_pos _ hpos, by simp [hp2]⟩,
    ?_, ?_, ?_⟩
  · simp [Engine.handler, hn, hg, castAt, hp1]
  · simp [Engine.handlerRand, hn, hr, castAt, hp2]
  · intro h hroute hws
    by_cases hb : (e.start env sup).1.balancing = 1
    · simp [faultRaised, hroute, hws, hb, hn, hr, hp2]
    · simp [faultRaised, hroute, hws, hb, hn, hg, hp1]

theorem no_unstarted_worker_witness :
    ((New 4 "web" 8080 []).start (sampleEnv sampleHandler) 1).1.manager
      = [100, 101, 102, 103] ∧
    (((New 4 "web" 8080 []).start (sampleEnv sampleHandler) 1).1.handler sampleConn
      sampleReq).propagated = false := by
  have h := no_unstarted_worker (New 4 "web" 8080 []) (sampleEnv sampleHandler) 1 rfl
    (by decide)
  refine ⟨?_, (h.2.2.2 sampleConn sampleReq (by decide)).2.2.1⟩
  rw [h.2.1]
  decide

/-! ## Listen addresses -/

theorem stringsIndex_ge (c : Char) (l : List Char) : -1 ≤ stringsIndex c l := by
  induction l with
  | nil => simp [stringsIndex]
  | cons x xs ih =>
    unfold stringsIndex
    by_cases hx : x = c
    · simp [hx]
    · by_cases hi : stringsIndex c xs < 0
      · simp [hx, hi]
      · simp only [hx, if_false, hi]; omega

theorem stringsIndex_nonneg_iff (c : Char) (l : List Char) :
    0 ≤ stringsIndex c l ↔ c ∈ l := by
  induction l with
  | nil => simp [stringsIndex]
  | cons x xs ih =>
    unfold stringsIndex
    by_cases hx : x = c
    · simp [hx]
    · have hx2 : ¬ c = x := fun h => hx h.symm
      by_cases hi : stringsIndex c xs < 0
      · have : ¬ c ∈ xs := fun hm => by have := ih.mpr hm; omega
        simp [hx, hi, hx2, this]
      · have hm : c ∈ xs := ih.mp (by omega)
        simp only [hx, if_false, hi, List.mem_cons, hm, or_true, iff_true]
        omega

theorem buildAddrLoop_eq (port : Int) (addrs rs : List String) :
    buildAddrLoop port addrs rs =
      rs ++ addrs.map (fun addr =>
        if ':' ∈ addr.data then addr else addr ++ ":" ++ Itoa port) := by
  induction addrs generalizing rs with
  | nil => simp [buildAddrLoop]
  | cons a rest ih =>
    unfold buildAddrLoop
    by_cases h : ':' ∈ a.data
    · have h0 : stringsIndex ':' a.data ≥ 0 := (stringsIndex_nonneg_iff _ _).mpr h
      simp [h0, h, ih]
    · have h0 : ¬ stringsIndex ':' a.data ≥ 0 := fun hh =>
        h ((stringsIndex_nonneg_iff _ _).mp hh)
      simp [h0, h, ih]

/-- C10. `Engine.buildAddr`: a port of 0 is replaced by 8080 and stored on the engine;
with no bind address the result is the one string `":" + port`; otherwise the result is
the address list, in order, where an address that contains `":"` is kept and any other
gets `":" + port` appended.  The result is never empty and each of its addresses contains
a `":"`. -/
theorem buildAddr_spec (e : Engine) :
    e.buildAddr.1.port = (if e.port = 0 then 8080 else e.port) ∧
    (e.addr = [] → e.buildAddr.2 = [":" ++ Itoa e.buildAddr.1.port]) ∧
    (e.addr ≠ [] → e.buildAddr.2 = e.addr.map (fun addr =>
      if ':' ∈ addr.data then addr else addr ++ ":" ++ Itoa e.buildAddr.1.port)) ∧
    e.buildAddr.2.length = (if e.addr = [] then 1 else e.addr.length) ∧
    e.buildAddr.2 ≠ [] ∧
    ∀ a ∈ e.buildAddr.2, ':' ∈ a.data := by
  have hcolon : ∀ (s t : String), ':' ∈ (s ++ ":" ++ t).data := by
    intro s t
    simp [String.data_append]
  by_cases hp : e.port = 0 <;> cases ha : e.addr with
  | nil =>
    simp [Engine.buildAddr, hp, ha]
    try exact hcolon "" _
  | cons a rest =>
    simp [Engine.buildAddr, hp, ha, buildAddrLoop_eq]
    refine ⟨?_, ?_⟩
    · split <;> [assumption; exact hcolon _ _]
    · intro b hb
      split <;> [assumption; exact hcolon _ _]

theorem buildAddr_spec_witness :
    ({ New 4 "web" 0 [] with addr := ["127.0.0.1", "[::1]:9000"] }).buildAddr.2
      = ["127.0.0.1:8080", "[::1]:9000"] := by
  rw [(buildAddr_spec { New 4 "web" 0 [] with addr := ["127.0.0.1", "[::1]:9000"] }).2.2.1
    (by decide)]
  decide

/-! ## Routes -/

theorem splitSlash_ne_nil (l : List Char) : splitSlash l ≠ [] := by
  cases l with
  | nil => simp [splitSlash]
  | cons c cs =>
    unfold splitSlash
    by_cases hc : c = '/'
    · simp [hc]
    · simp only [hc, if_false]
      cases splitSlash cs <;> simp

theorem splitSlash_append_slash (p s : List Char) :
    splitSlash (p ++ '/' :: s) = splitSlash p ++ splitSlash s := by
  induction p with
  | nil => simp [splitSlash]
  | cons c cs ih =>
    by_cases hc : c = '/'
    · simp [splitSlash, hc, ih]
    · have hne := splitSlash_ne_nil cs
      cases hcs : splitSlash cs with
      | nil => exact absurd hcs hne
      | cons seg segs => simp [splitSlash, hc, ih, hcs]

theorem buildPaths_append (P S : String) (s : List Char) (hS : S.data = '/' :: s) :
    buildPaths (P ++ S) = buildPaths P ++ (buildPaths S).drop 1 ∧
    (buildPaths S).drop 1 ≠ [] ∧ buildPaths P ≠ [] := by
  refine ⟨?_, ?_, ?_⟩
  · simp [buildPaths, String.data_append, hS, splitSlash_append_slash, splitSlash]
  · simp [buildPaths, hS, splitSlash, splitSlash_ne_nil]
  · simp [buildPaths, splitSlash_ne_nil]

theorem handler_setF_f (h : handler) (f : Option handlerFunc) : (h.setF f).f = f := by
  cases h; rfl

theorem handler_setF_r (h : handler) (f : Option handlerFunc) : (h.setF f).r = h.r := by
  cases h; rfl

theorem handler_setF_interceptor (h : handler) (f : Option handlerFunc) :
    (h.setF f).interceptor = h.interceptor := by
  cases h; rfl

theorem handler_setR_f (h : handler) (r : Option router) : (h.setR r).f = h.f := by
  cases h; rfl

theorem handler_setR_r (h : handler) (r : Option router) : (h.setR r).r = r := by
  cases h; rfl

theorem handler_setR_interceptor (h : handler) (r : Option router) :
    (h.setR r).interceptor = h.interceptor := by
  cases h; rfl

theorem routeOf_setR (h : handler) (r : Option router) :
    routeOf (.ok (h.setR r)) = routeOf (.ok h) := by
  cases h; rfl

theorem emptyHandler_f : emptyHandler.f = none := rfl

theorem emptyHandler_r : emptyHandler.r = none := rfl

theorem emptyHandler_interceptor : emptyHandler.interceptor = none := rfl

theorem routerGet_set_same (r : router) (k : String) (v : handler) :
    routerGet (routerSet r k v) k = some v := by
  induction r with
  | nil => simp [routerSet, routerGet]
  | cons kv rest ih =>
    obtain ⟨k0, h0⟩ := kv
    by_cases hk : k0 = k
    · simp [routerSet, routerGet, hk]
    · simp [routerSet, routerGet, hk, ih]

theorem routerGet_set_other (r : router) (k k2 : String) (v : handler) (hne : k2 ≠ k) :
    routerGet (routerSet r k v) k2 = routerGet r k2 := by
  have hne2 : ¬ k = k2 := fun h => hne h.symm
  induction r with
  | nil => simp [routerSet, routerGet, hne2]
  | cons kv rest ih =>
    obtain ⟨k0, h0⟩ := kv
    by_cases hk : k0 = k
    · subst hk
      simp [routerSet, routerGet, hne2]
    · by_cases hk2 : k0 = k2
      · subst hk2
        simp [routerSet, routerGet, hk]
      · simp [routerSet, routerGet, hk, hk2, ih]

theorem insertPathsGroup_single (r : router) (p : String) (f : Option handlerFunc) :
    insertPathsGroup r [p] f =
      routerSet r p (((routerGet r p).getD emptyHandler).setF f) := rfl

theorem insertPathsGroup_cons2 (r : router) (p p2 : String) (ps : List String)
    (f : Option handlerFunc) :
    insertPathsGroup r (p :: p2 :: ps) f =
      routerSet r p (((routerGet r p).getD emptyHandler).setR
        (some (insertPathsGroup (((routerGet r p).getD emptyHandler).r.getD []) (p2 :: ps) f)))
    := rfl

theorem insertPathsGroup_cons (r : router) (p : String) (ps : List String)
    (f : Option handlerFunc) : ∃ v, insertPathsGroup r (p :: ps) f = routerSet r p v := by
  cases ps with
  | nil => exact ⟨_, insertPathsGroup_single r p f⟩
  | cons p2 ps2 => exact ⟨_, insertPathsGroup_cons2 r p p2 ps2 f⟩

theorem walk_empty (req : Request) (ps : List String) :
    walk [] req ps = .error "not found" := by
  cases ps <;> simp [walk, routerGet]

theorem pathOpen_empty (req : Request) (ps : List String) : pathOpen [] req ps = true := by
  cases ps <;> simp [pathOpen, routerGet]

theorem walk_set_same (r : router) (req : Request) (p : String) (v : handler)
    (ps : List String) :
    walk (routerSet r p v) req (p :: ps) =
      if (match v.interceptor with
          | some ic => !ic req
          | none => false) then .error "rejected"
      else
        match ps with
        | [] => if v.f.isSome then .ok v else .error "not found"
        | _ :: _ => walk (v.r.getD []) req ps := by
  rw [walk, routerGet_set_same]

theorem walk_set_other (r : router) (req : Request) (p q : String) (v : handler)
    (qs : List String) (hne : q ≠ p) :
    walk (routerSet r p v) req (q :: qs) = walk r req (q :: qs) := by
  rw [walk, walk, routerGet_set_other r p q v hne]

theorem walk_get_none (r : router) (req : Request) (p : String) (ps : List String)
    (hg : routerGet r p = none) : walk r req (p :: ps) = .error "not found" := by
  rw [walk, hg]

theorem walk_get_some (r : router) (req : Request) (p : String) (ps : List String)
    (h : handler) (hg : routerGet r p = some h) :
    walk r req (p :: ps) =
      if (match h.interceptor with
          | some ic => !ic req
          | none => false) then .error "rejected"
      else
        match ps with
        | [] => if h.f.isSome then .ok h else .error "not found"
        | _ :: _ => walk (h.r.getD []) req ps := by
  rw [walk, hg]

theorem walk_insert_other (req : Request) (f : Option handlerFunc) (ps : List String) :
    ∀ (r : router) (qs : List String), qs ≠ ps →
      routeOf (walk (insertPathsGroup r ps f) req qs) = routeOf (walk r req qs) := by
  induction ps with
  | nil => intro r qs _; rfl
  | cons p ps1 ih =>
    intro r qs hne
    cases qs with
    | nil => rfl
    | cons q qs1 =>
      by_cases hqp : q = p
      · subst hqp
        have hne1 : qs1 ≠ ps1 := fun h => hne (by rw [h])
        cases ps1 with
        | nil =>
          obtain ⟨q2, qs2, rfl⟩ := List.exists_cons_of_ne_nil hne1
          rw [insertPathsGroup_single, walk_set_same]
          cases hg : routerGet r q with
          | none =>
            rw [walk_get_none r req q _ hg]
            simp [handler_setF_interceptor, handler_setF_r, emptyHandler_interceptor,
              emptyHandler_r, walk_empty]
          | some h0 =>
            rw [walk_get_some r req q _ h0 hg]
            simp [handler_setF_interceptor, handler_setF_r]
        | cons p2 ps2 =>
          rw [insertPathsGroup_cons2, walk_set_same]
          cases hg : routerGet r q with
          | none =>
            rw [walk_get_none r req q _ hg]
            cases qs1 with
            | nil => simp [handler_setR_interceptor, handler_setR_f, emptyHandler_interceptor,
                emptyHandler_f]
            | cons q2 qs2 =>
              have := ih [] (q2 :: qs2) hne1
              rw [walk_empty] at this
              simpa [handler_setR_interceptor, handler_setR_r, emptyHandler_interceptor,
                emptyHandler_r] using this
          | some h0 =>
            rw [walk_get_some r req q _ h0 hg]
            cases qs1 with
            | nil =>
              simp only [Option.getD_some, handler_setR_interceptor, handler_setR_f]
              split
              · rfl
              · split <;> simp [routeOf_setR]
            | cons q2 qs2 =>
              have := ih (h0.r.getD []) (q2 :: qs2) hne1
              simp only [Option.getD_some, handler_setR_interceptor, handler_setR_r]
              split
              · rfl
              · exact this
      · obtain ⟨v, hv⟩ := insertPathsGroup_cons r p ps1 f
        rw [hv, walk_set_other r req p q v qs1 hqp]

theorem pathOpen_get_none (r : router) (req : Request) (p : String) (ps : List String)
    (hg : routerGet r p = none) : pathOpen r req (p :: ps) = true := by
  rw [pathOpen, hg]

theorem pathOpen_get_some (r : router) (req : Request) (p : String) (ps : List String)
    (h : handler) (hg : routerGet r p = some h) :
    pathOpen r req (p :: ps) =
      ((match h.interceptor with
        | some ic => ic req
        | none => true) && pathOpen (h.r.getD []) req ps) := by
  rw [pathOpen, hg]

theorem pathOpen_insert (req : Request) (f : Option handlerFunc) (ps : List String) :
    ∀ (r : router) (qs : List String),
      pathOpen (insertPathsGroup r ps f) req qs = pathOpen r req qs := by
  induction ps with
  | nil => intro r qs; rfl
  | cons p ps1 ih =>
    intro r qs
    cases qs with
    | nil => rfl
    | cons q qs1 =>
      by_cases hqp : q = p
      · subst hqp
        cases ps1 with
        | nil =>
          rw [insertPathsGroup_single,
            pathOpen_get_some _ req q qs1 _ (routerGet_set_same r q _)]
          cases hg : routerGet r q with
          | none =>
            rw [pathOpen_get_none r req q _ hg]
            simp [handler_setF_interceptor, handler_setF_r, emptyHandler_interceptor,
              emptyHandler_r, pathOpen_empty]
          | some h0 =>
            rw [pathOpen_get_some r req q _ h0 hg]
            simp [handler_setF_interceptor, handler_setF_r]
        | cons p2 ps2 =>
          rw [insertPathsGroup_cons2,
            pathOpen_get_some _ req q qs1 _ (routerGet_set_same r q _)]
          cases hg : routerGet r q with
          | none =>
            rw [pathOpen_get_none r req q _ hg]
            simp [handler_setR_interceptor, handler_setR_r, emptyHandler_interceptor,
              emptyHandler_r, ih, pathOpen_empty]
          | some h0 =>
            rw [pathOpen_get_some r req q _ h0 hg]
            simp [handler_setR_interceptor, handler_setR_r, ih]
      · obtain ⟨v, hv⟩ := insertPathsGroup_cons r p ps1 f
        rw [hv, pathOpen, pathOpen, routerGet_set_other r p q v hqp]

theorem walk_insert_same (req : Request) (f : handlerFunc) (ps : List String) :
    ∀ (r : router), ps ≠ [] → pathOpen r req ps = true →
      ∃ node, walk (insertPathsGroup r ps (some f)) req ps = .ok node ∧
        node.f = some f := by
  induction ps with
  | nil => intro r hne; exact absurd rfl hne
  | cons p ps1 ih =>
    intro r _ hopen
    cases ps1 with
    | nil =>
      rw [insertPathsGroup_single, walk_set_same]
      cases hg : routerGet r p with
      | none =>
        refine ⟨emptyHandler.setF (some f), ?_, handler_setF_f _ _⟩
        simp [handler_setF_interceptor, handler_setF_f, emptyHandler_interceptor]
      | some h0 =>
        rw [pathOpen_get_some r req p _ h0 hg] at hopen
        have hic : (match h0.interceptor with
            | some ic => ic req
            | none => true) = true := by
          rw [Bool.and_eq_true] at hopen
          exact hopen.1
        refine ⟨h0.setF (some f), ?_, handler_setF_f _ _⟩
        simp only [Option.getD_some, handler_setF_interceptor, handler_setF_f]
        cases hi : h0.interceptor with
        | none => simp
        | some ic =>
          rw [hi] at hic
          simp at hic
          simp [hic]
    | cons p2 ps2 =>
      rw [insertPathsGroup_cons2, walk_set_same]
      cases hg : routerGet r p with
      | none =>
        obtain ⟨node, hw, hf⟩ := ih [] (by simp) (pathOpen_empty req _)
        refine ⟨node, ?_, hf⟩
        simpa [handler_setR_interceptor, handler_setR_r, emptyHandler_interceptor,
          emptyHandler_r] using hw
      | some h0 =>
        rw [pathOpen_get_some r req p _ h0 hg, Bool.and_eq_true] at hopen
        obtain ⟨node, hw, hf⟩ := ih (h0.r.getD []) (by simp) hopen.2
        refine ⟨node, ?_, hf⟩
        have hic := hopen.1
        simp only [Option.getD_some, handler_setR_interceptor, handler_setR_r]
        cases hi : h0.interceptor with
        | none => simpa using hw
        | some ic =>
          rw [hi] at hic
          simp at hic
          simpa [hic] using hw

theorem walk_insert_none_fresh (req : Request) (ps : List String) :
    ∀ (qs : List String), walk (insertPathsGroup [] ps none) req qs = .error "not found" := by
  induction ps with
  | nil => intro qs; exact walk_empty req qs
  | cons p ps1 ih =>
    intro qs
    cases qs with
    | nil => rfl
    | cons q qs1 =>
      by_cases hqp : q = p
      · subst hqp
        cases ps1 with
        | nil =>
          rw [insertPathsGroup_single, walk_set_same]
          cases qs1 <;>
            simp [routerGet, handler_setF_interceptor, handler_setF_f, handler_setF_r,
              emptyHandler_interceptor, emptyHandler_r, walk_empty]
        | cons p2 ps2 =>
          rw [insertPathsGroup_cons2, walk_set_same]
          cases qs1 with
          | nil =>
            simp [routerGet, handler_setR_interceptor, handler_setR_f,
              emptyHandler_interceptor, emptyHandler_f]
          | cons q2 qs2 =>
            have := ih (q2 :: qs2)
            simpa [routerGet, handler_setR_interceptor, handler_setR_r,
              emptyHandler_interceptor, emptyHandler_r] using this
      · obtain ⟨v, hv⟩ := insertPathsGroup_cons [] p ps1 none
        rw [hv, walk_set_other [] req p q v qs1 hqp, walk_empty]

theorem nodeAt_insert (f : Option handlerFunc) (ps : List String) :
    ∀ (r : router), ps ≠ [] → (nodeAt (insertPathsGroup r ps f) ps).isSome = true := by
  induction ps with
  | nil => intro r hne; exact absurd rfl hne
  | cons p ps1 ih =>
    intro r _
    cases ps1 with
    | nil => rw [insertPathsGroup_single, nodeAt, routerGet_set_same]; rfl
    | cons p2 ps2 =>
      rw [insertPathsGroup_cons2, nodeAt, routerGet_set_same]
      simp only [handler_setR_r, Option.getD_some]
      exact ih _ (by simp)

theorem updateNode_eq_insert (f : Option handlerFunc) (paths : List String)
    (hp : paths ≠ []) (gh : List String) :
    ∀ (root : router), (nodeAt root gh).isSome = true →
      updateNode root gh
          (fun h => h.setR (some (insertPathsGroup (h.r.getD []) paths f))) =
        insertPathsGroup root (gh ++ paths) f := by
  obtain ⟨q, qs, rfl⟩ := List.exists_cons_of_ne_nil hp
  induction gh with
  | nil => intro root h; simp [nodeAt] at h
  | cons p gh1 ih =>
    intro root hnode
    cases hg : routerGet root p with
    | none => simp [nodeAt, hg] at hnode
    | some h0 =>
      cases gh1 with
      | nil =>
        rw [updateNode, hg]
        simp only [List.cons_append, List.nil_append]
        rw [insertPathsGroup_cons2, hg]
        rfl
      | cons p2 gh2 =>
        have hnode2 : (nodeAt (h0.r.getD []) (p2 :: gh2)).isSome = true := by
          rw [nodeAt, hg] at hnode
          exact hnode
        have := ih (h0.r.getD []) hnode2
        rw [updateNode, hg]
        simp only [List.cons_append]
        rw [insertPathsGroup_cons2, hg]
        simp only [Option.getD_some]
        rw [← List.cons_append, ← this]

theorem routeOf_error (x : Except String handler) (m : String)
    (h : routeOf x = .error m) : x = .error m := by
  cases x with
  | error m2 => simpa [routeOf] using h
  | ok v => simp [routeOf] at h

theorem groupInsert_eq (r : router) (P S : String) (s : List Char) (f : Option handlerFunc)
    (hS : S.data = '/' :: s) :
    groupInsert (insertPathsGroup r (buildPaths P) none) (buildPaths P) S f =
      insertPathsGroup (insertPathsGroup r (buildPaths P) none) (buildPaths (P ++ S)) f := by
  obtain ⟨hb, hq, hp⟩ := buildPaths_append P S s hS
  rw [hb]
  exact updateNode_eq_insert f _ hq (buildPaths P) _ (nodeAt_insert none _ r hp)

theorem group_router_spec (r : router) (req : Request) (P S : String) (s : List Char)
    (h : handlerFunc) (hS : S.data = '/' :: s) :
    (pathOpen r req (buildPaths (P ++ S)) = true →
      ∃ node, walk (groupInsert (insertPathsGroup r (buildPaths P) none) (buildPaths P) S
          (some h)) req (buildPaths (P ++ S)) = .ok node ∧ node.f = some h) ∧
    (∀ qs, qs ≠ buildPaths P → qs ≠ buildPaths (P ++ S) →
      routeOf (walk (groupInsert (insertPathsGroup r (buildPaths P) none) (buildPaths P) S
          (some h)) req qs) = routeOf (walk r req qs)) ∧
    (r = [] → ∀ qs, qs ≠ buildPaths (P ++ S) →
      walk (groupInsert (insertPathsGroup r (buildPaths P) none) (buildPaths P) S
          (some h)) req qs = .error "not found") := by
  obtain ⟨hb, hq, hp⟩ := buildPaths_append P S s hS
  have hne : buildPaths (P ++ S) ≠ [] := by rw [hb]; simp [hp]
  rw [groupInsert_eq r P S s (some h) hS]
  refine ⟨?_, ?_, ?_⟩
  · intro hopen
    exact walk_insert_same req h _ _ hne (by rw [pathOpen_insert]; exact hopen)
  · intro qs h1 h2
    rw [walk_insert_other req (some h) _ _ qs h2, walk_insert_other req none _ r qs h1]
  · intro hr qs h2
    subst hr
    apply routeOf_error
    rw [walk_insert_other req (some h) _ _ qs h2, walk_insert_none_fresh]
    rfl

theorem insert_router_spec (r : router) (req : Request) (U : String) (h : handlerFunc) :
    (pathOpen r req (buildPaths U) = true →
      ∃ node, walk (insertPathsGroup r (buildPaths U) (some h)) req (buildPaths U)
        = .ok node ∧ node.f = some h) ∧
    (∀ qs, qs ≠ buildPaths U →
      routeOf (walk (insertPathsGroup r (buildPaths U) (some h)) req qs)
        = routeOf (walk r req qs)) := by
  have hU : buildPaths U ≠ [] := by simp [buildPaths, splitSlash_ne_nil]
  exact ⟨fun hopen => walk_insert_same req h _ r hU hopen,
    fun qs hq => walk_insert_other req (some h) _ r qs hq⟩

theorem routerHandler_get (e : Engine) (conn : Conn) (U : String) :
    routerHandler e (newRequest { Method := "GET", RequestURI := U } conn) =
      walk e.getRouter (newRequest { Method := "GET", RequestURI := U } conn)
        (buildPaths U) := by
  simp [routerHandler, newRequest]

theorem routerHandler_post (e : Engine) (conn : Conn) (U : String) :
    routerHandler e (newRequest { Method := "POST", RequestURI := U } conn) =
      walk e.postRouter (newRequest { Method := "POST", RequestURI := U } conn)
        (buildPaths U) := by
  simp [routerHandler, newRequest]

/-- C9. Group registration and lookup, for a `buildPaths` that splits at `/` and a
sub-path `S` that begins with `/`.  On any engine `e`, after `g := e.GetGroup(P)` and
`g.Get(S, h)`: the lookup of `GET P+S` returns a node bound to `h`, provided no interceptor
already on that path rejects the request; the lookup of every other `GET` path (other than
the group node `P` itself) returns what it returned before, so that earlier routes stay and
unregistered paths stay errors; every `POST` lookup is unchanged; and when the `GET` trie
was empty, every `GET` path other than `P+S` returns the error `not found`.  The same holds
for `PostGroup(P).Post(S, h)` with the methods exchanged, and the first three for the
direct registrations `e.Get(P+S, h)` and `e.Post(P+S, h)`.  On an engine with an empty
`GET` trie, after `GetGroup("/v1")` and `Get("/login", h)`, `GET /v1/login` returns a node
bound to `h` and `GET /v1/other` returns the error `not found`. -/
theorem group_registration_lookup (e : Engine) (conn : Conn) (P S : String)
    (s : List Char) (h : handlerFunc) (hS : S.data = '/' :: s) :
    (pathOpen e.getRouter (newRequest { Method := "GET", RequestURI := (P ++ S) } conn) (buildPaths (P ++ S)) = true →
      ∃ node, routerHandler ((e.GetGroup P).2.Get (e.GetGroup P).1 S h) (newRequest { Method := "GET", RequestURI := (P ++ S) } conn) = .ok node ∧ node.f = some h) ∧
    (∀ U, buildPaths U ≠ buildPaths P → buildPaths U ≠ buildPaths (P ++ S) →
      routeOf (routerHandler ((e.GetGroup P).2.Get (e.GetGroup P).1 S h) (newRequest { Method := "GET", RequestURI := U } conn)) =
        routeOf (routerHandler e (newRequest { Method := "GET", RequestURI := U } conn))) ∧
    (∀ U, routerHandler ((e.GetGroup P).2.Get (e.GetGroup P).1 S h) (newRequest { Method := "POST", RequestURI := U } conn) =
      routerHandler e (newRequest { Method := "POST", RequestURI := U } conn)) ∧
    (e.getRouter = [] → ∀ U, buildPaths U ≠ buildPaths (P ++ S) →
      routerHandler ((e.GetGroup P).2.Get (e.GetGroup P).1 S h) (newRequest { Method := "GET", RequestURI := U } conn) = .error "not found") ∧
    (pathOpen e.postRouter (newRequest { Method := "POST", RequestURI := (P ++ S) } conn) (buildPaths (P ++ S)) = true →
      ∃ node, routerHandler ((e.PostGroup P).2.Post (e.PostGroup P).1 S h) (newRequest { Method := "POST", RequestURI := (P ++ S) } conn) = .ok node ∧ node.f = some h) ∧
    (∀ U, buildPaths U ≠ buildPaths P → buildPaths U ≠ buildPaths (P ++ S) →
      routeOf (routerHandler ((e.PostGroup P).2.Post (e.PostGroup P).1 S h) (newRequest { Method := "POST", RequestURI := U } conn)) =
        routeOf (routerHandler e (newRequest { Method := "POST", RequestURI := U } conn))) ∧
    (∀ U, routerHandler ((e.PostGroup P).2.Post (e.PostGroup P).1 S h) (newRequest { Method := "GET", RequestURI := U } conn) =
      routerHandler e (newRequest { Method := "GET", RequestURI := U } conn)) ∧
    (e.postRouter = [] → ∀ U, buildPaths U ≠ buildPaths (P ++ S) →
      routerHandler ((e.PostGroup P).2.Post (e.PostGroup P).1 S h) (newRequest { Method := "POST", RequestURI := U } conn) = .error "not found") ∧
    (pathOpen e.getRouter (newRequest { Method := "GET", RequestURI := (P ++ S) } conn) (buildPaths (P ++ S)) = true →
      ∃ node, routerHandler (e.Get (P ++ S) h) (newRequest { Method := "GET", RequestURI := (P ++ S) } conn) = .ok node ∧ node.f = some h) ∧
    (∀ U, buildPaths U ≠ buildPaths (P ++ S) →
      routeOf (routerHandler (e.Get (P ++ S) h) (newRequest { Method := "GET", RequestURI := U } conn)) =
        routeOf (routerHandler e (newRequest { Method := "GET", RequestURI := U } conn))) ∧
    (∀ U, routerHandler (e.Get (P ++ S) h) (newRequest { Method := "POST", RequestURI := U } conn) =
      routerHandler e (newRequest { Method := "POST", RequestURI := U } conn)) ∧
    (pathOpen e.postRouter (newRequest { Method := "POST", RequestURI := (P ++ S) } conn) (buildPaths (P ++ S)) = true →
      ∃ node, routerHandler (e.Post (P ++ S) h) (newRequest { Method := "POST", RequestURI := (P ++ S) } conn) = .ok node ∧ node.f = some h) ∧
    (∀ U, buildPaths U ≠ buildPaths (P ++ S) →
      routeOf (routerHandler (e.Post (P ++ S) h) (newRequest { Method := "POST", RequestURI := U } conn)) =
        routeOf (routerHandler e (newRequest { Method := "POST", RequestURI := U } conn))) ∧
    (∀ U, routerHandler (e.Post (P ++ S) h) (newRequest { Method := "GET", RequestURI := U } conn) =
      routerHandler e (newRequest { Method := "GET", RequestURI := U } conn)) ∧
    (e.getRouter = [] →
      (∃ node, routerHandler ((e.GetGroup "/v1").2.Get (e.GetGroup "/v1").1 "/login" h)
          (newRequest { Method := "GET", RequestURI := "/v1/login" } conn) = .ok node ∧
        node.f = some h) ∧
      routerHandler ((e.GetGroup "/v1").2.Get (e.GetGroup "/v1").1 "/login" h)
          (newRequest { Method := "GET", RequestURI := "/v1/other" } conn) = .error "not found") := by
  have hG := fun (r : router) (q : Request) => group_router_spec r q P S s h hS
  have hD := fun (r : router) (q : Request) => insert_router_spec r q (P ++ S) h
  have hV := fun (r : router) (q : Request) =>
    group_router_spec r q "/v1" "/login" ['l', 'o', 'g', 'i', 'n'] h rfl
  have e3 : buildPaths ("/v1" ++ "/login") = buildPaths "/v1/login" := by decide
  have e4 : buildPaths "/v1/other" ≠ buildPaths ("/v1" ++ "/login") := by decide
  refine ⟨?_, ?_, ?_, ?_, ?_, ?_, ?_, ?_, ?_, ?_, ?_, ?_, ?_, ?_, ?_⟩
  · intro hopen
    rw [routerHandler_get]
    exact (hG e.getRouter _).1 hopen
  · intro U h1 h2
    rw [routerHandler_get, routerHandler_get]
    exact (hG e.getRouter _).2.1 _ h1 h2
  · intro U
    rw [routerHandler_post, routerHandler_post]
    rfl
  · intro hr U h2
    rw [routerHandler_get]
    exact (hG e.getRouter _).2.2 hr _ h2
  · intro hopen
    rw [routerHandler_post]
    exact (hG e.postRouter _).1 hopen
  · intro U h1 h2
    rw [routerHandler_post, routerHandler_post]
    exact (hG e.postRouter _).2.1 _ h1 h2
  · intro U
    rw [routerHandler_get, routerHandler_get]
    rfl
  · intro hr U h2
    rw [routerHandler_post]
    exact (hG e.postRouter _).2.2 hr _ h2
  · intro hopen
    rw [routerHandler_get]
    exact (hD e.getRouter _).1 hopen
  · intro U h1
    rw [routerHandler_get, routerHandler_get]
    exact (hD e.getRouter _).2 _ h1
  · intro U
    rw [routerHandler_post, routerHandler_post]
    rfl
  · intro hopen
    rw [routerHandler_post]
    exact (hD e.postRouter _).1 hopen
  · intro U h1
    rw [routerHandler_post, routerHandler_post]
    exact (hD e.postRouter _).2 _ h1
  · intro U
    rw [routerHandler_get, routerHandler_get]
    rfl
  · intro hr
    constructor
    · rw [routerHandler_get, ← e3]
      exact (hV e.getRouter _).1 (by rw [hr]; exact pathOpen_empty _ _)
    · rw [routerHandler_get]
      exact (hV e.getRouter _).2.2 hr _ e4

theorem group_registration_lookup_witness :
    (routerHandler
        ((((New 4 "web" 8080 []).Get "/ping" 5).GetGroup "/v1").2.Get
          (((New 4 "web" 8080 []).Get "/ping" 5).GetGroup "/v1").1 "/login" 7)
        (newRequest { Method := "GET", RequestURI := "/v1" ++ "/login" } sampleConn)
      ).toOption.bind handler.f = some 7 ∧
    routeOf (routerHandler
        ((((New 4 "web" 8080 []).Get "/ping" 5).GetGroup "/v1").2.Get
          (((New 4 "web" 8080 []).Get "/ping" 5).GetGroup "/v1").1 "/login" 7)
        (newRequest { Method := "GET", RequestURI := "/ping" } sampleConn))
      = .ok (some 5, false, none, []) := by
  have h := group_registration_lookup ((New 4 "web" 8080 []).Get "/ping" 5) sampleConn
    "/v1" "/login" ['l', 'o', 'g', 'i', 'n'] 7 rfl
  constructor
  · obtain ⟨node, hw, hf⟩ := h.1 (by decide)
    rw [hw]
    simp [Except.toOption, hf]
  · rw [h.2.1 "/ping" (by decide) (by decide)]
    rfl

end Httpd
